import Mathlib

/-!
# voyager-overlay: a shallow embedding of `voyager-overlay.cpp`

The C++ `double` quantities are idealised as elements of an ordered field `K`
(`ℚ` for evaluation, `ℝ` for the analytic statements); rounding is not modelled.
Drawing calls on a `PdfPainter` or a content stream are modelled as the list of
operations they append, in call order.
-/

namespace VoyagerOverlay

/-! ## Painter operations and `RoundedRectangle` -/

/-- The `PdfPainter` calls made by `RoundedRectangle` and `button`, as data. -/
inductive PainterOp (K : Type) where
  | Save : PainterOp K
  | Restore : PainterOp K
  | SetStrokingColor (gray : K) : PainterOp K
  | SetStrokeWidth (w : K) : PainterOp K
  | MoveTo (x y : K) : PainterOp K
  | LineTo (x y : K) : PainterOp K
  | CubicBezierTo (x1 y1 x2 y2 x3 y3 : K) : PainterOp K
  | Stroke : PainterOp K
  deriving DecidableEq, Repr

open PainterOp

/-- The local constant `arc_magic` of `RoundedRectangle`. It is a decimal literal: only a
reading of decimal literals is asked of `K`, no division. -/
def arc_magic {K : Type} [OfScientific K] : K := 0.552284749

/-- `RoundedRectangle(painter, dX, dY, dWidth, dHeight, dRoundX, dRoundY)`: the operations
appended to the painter. The body is typed in a commutative ring: it has addition,
subtraction and multiplication at its disposal and no division. -/
def RoundedRectangle {K : Type} [CommRing K] [OfScientific K]
    (dX dY dWidth dHeight dRoundX dRoundY : K) : List (PainterOp K) :=
  [ MoveTo        (dX + dRoundX)                      dY,
    LineTo        (dX + dWidth - dRoundX)             dY,
    CubicBezierTo (dX + dWidth - dRoundX * arc_magic) dY
                  (dX + dWidth)                       (dY + dRoundY * arc_magic)
                  (dX + dWidth)                       (dY + dRoundY),
    LineTo        (dX + dWidth)                       (dY + dHeight - dRoundY),
    CubicBezierTo (dX + dWidth)                       (dY + dHeight - dRoundY * arc_magic)
                  (dX + dWidth - dRoundX * arc_magic) (dY + dHeight)
                  (dX + dWidth - dRoundX)             (dY + dHeight),
    LineTo        (dX + dRoundX)                      (dY + dHeight),
    CubicBezierTo (dX + dRoundX * arc_magic)          (dY + dHeight)
                  dX                                  (dY + dHeight - dRoundY * arc_magic)
                  dX                                  (dY + dHeight - dRoundY),
    LineTo        dX                                  (dY + dRoundY),
    CubicBezierTo dX                                  (dY + dRoundY * arc_magic)
                  (dX + dRoundX * arc_magic)          dY
                  (dX + dRoundX)                      dY ]

/-- `button(painter, center_x, center_y, width, height, radius)` with the `#if 1` branch. -/
def button {K : Type} [Field K] (center_x center_y width height radius : K) :
    List (PainterOp K) :=
  [Save, SetStrokingColor 0.0, SetStrokeWidth 0.01]
    ++ RoundedRectangle (center_x - width / 2.0) (center_y - height / 2.0)
         width height radius radius
    ++ [Stroke, Restore]

/-! ## Reading a path: segments and points (PDF path semantics) -/

/-- A straight segment of a path: where the pen was, and where `LineTo` took it. -/
structure LineSeg (K : Type) where
  p0 : K × K
  p1 : K × K
  deriving DecidableEq, Repr

/-- A cubic Bézier segment: the pen position, the two control points, the end point. -/
structure CubicSeg (K : Type) where
  p0 : K × K
  c1 : K × K
  c2 : K × K
  p3 : K × K
  deriving DecidableEq, Repr

/-- The pen position after an operation, given the position before it. -/
def penAfter {K : Type} (cur : K × K) : PainterOp K → K × K
  | MoveTo x y => (x, y)
  | LineTo x y => (x, y)
  | CubicBezierTo _ _ _ _ x3 y3 => (x3, y3)
  | _ => cur

/-- The straight segments of a path, in drawing order, starting with the pen at `cur`. -/
def lineSegsFrom {K : Type} (cur : K × K) : List (PainterOp K) → List (LineSeg K)
  | [] => []
  | LineTo x y :: ops => ⟨cur, (x, y)⟩ :: lineSegsFrom (x, y) ops
  | op :: ops => lineSegsFrom (penAfter cur op) ops

/-- The cubic segments of a path, in drawing order, starting with the pen at `cur`. -/
def cubicSegsFrom {K : Type} (cur : K × K) : List (PainterOp K) → List (CubicSeg K)
  | [] => []
  | CubicBezierTo x1 y1 x2 y2 x3 y3 :: ops =>
      ⟨cur, (x1, y1), (x2, y2), (x3, y3)⟩ :: cubicSegsFrom (x3, y3) ops
  | op :: ops => cubicSegsFrom (penAfter cur op) ops

/-- Every anchor point and control point named by an operation. -/
def opPoints {K : Type} : PainterOp K → List (K × K)
  | MoveTo x y => [(x, y)]
  | LineTo x y => [(x, y)]
  | CubicBezierTo x1 y1 x2 y2 x3 y3 => [(x1, y1), (x2, y2), (x3, y3)]
  | _ => []

/-- Every anchor point and control point of a path, in order. -/
def pathPoints {K : Type} (ops : List (PainterOp K)) : List (K × K) :=
  ops.flatMap opPoints

/-- The point at parameter `t` of a cubic Bézier segment (Bernstein form). -/
def CubicSeg.eval {K : Type} [CommRing K] (s : CubicSeg K) (t : K) : K × K :=
  ((1 - t) ^ 3 * s.p0.1 + 3 * (1 - t) ^ 2 * t * s.c1.1 + 3 * (1 - t) * t ^ 2 * s.c2.1
      + t ^ 3 * s.p3.1,
   (1 - t) ^ 3 * s.p0.2 + 3 * (1 - t) ^ 2 * t * s.c1.2 + 3 * (1 - t) * t ^ 2 * s.c2.2
      + t ^ 3 * s.p3.2)

/-- Squared Euclidean distance between two points. -/
def distSq {K : Type} [CommRing K] (p c : K × K) : K :=
  (p.1 - c.1) ^ 2 + (p.2 - c.2) ^ 2

/-- The centres of the four quarter circles of radius `r` inscribed in the corners of the
rectangle, in the order in which `RoundedRectangle` draws the corners. -/
def cornerCentres {K : Type} [CommRing K] (dX dY dWidth dHeight r : K) : List (K × K) :=
  [ (dX + dWidth - r, dY + r), (dX + dWidth - r, dY + dHeight - r),
    (dX + r, dY + dHeight - r), (dX + r, dY + r) ]

/-- The four square corners of the rectangle, anticlockwise from `(dX, dY)`. -/
def squareCorners {K : Type} [CommRing K] (dX dY dWidth dHeight : K) : List (K × K) :=
  [ (dX, dY), (dX + dWidth, dY), (dX + dWidth, dY + dHeight), (dX, dY + dHeight) ]

/-! ## Constants and geometry records -/

section Geometry
variable {K : Type} [Field K]

def mm_per_in : K := 25.4
def pt_per_in : K := 72.0

def PAGE_INSET_LEFT_IN : K := 0.625
def PAGE_INSET_RIGHT_IN : K := 0.625
def PAGE_INSET_TOP_IN : K := 0.625
def PAGE_INSET_BOTTOM_IN : K := 1.024

/-- Declared `float` in the source; idealised, like every other literal, as the decimal. -/
def OVERLAY_MINIMUM_Y_GAP_IN : K := 0.1

end Geometry

structure RegistrationGeometry (K : Type) where
  inset_left_in : K
  inset_right_in : K
  inset_top_in : K
  inset_bottom_in : K
  square_size_in : K
  line_length_in : K
  line_width_in : K

structure OverlayGeometry (K : Type) where
  width_in : K
  height_in : K
  corner_radius_in : K
  key_col_pitch_in : K
  key_row_pitch_in : K
  key_row_1_offset_in : K
  key_width_in : K
  key_height_in : K
  key_corner_radius_in : K

def cameo4_no_mat_reg_geometry {K : Type} [Field K] : RegistrationGeometry K where
  inset_left_in := 0.625
  inset_right_in := 0.625
  inset_top_in := 0.625
  inset_bottom_in := 1.024
  square_size_in := 0.2
  line_length_in := 0.5
  line_width_in := 0.5 / mm_per_in

def hp_geometry {K : Type} [Field K] : OverlayGeometry K where
  width_in := 4.65
  height_in := 2.10
  corner_radius_in := 0.025
  key_col_pitch_in := 0.45
  key_row_pitch_in := 0.50
  key_row_1_offset_in := 0.133
  key_width_in := 0.34
  key_height_in := 0.32
  key_corner_radius_in := 0.025

def sm_geometry {K : Type} [Field K] : OverlayGeometry K where
  width_in := 4.75
  height_in := 1.95
  corner_radius_in := 0.025
  key_col_pitch_in := 0.475
  key_row_pitch_in := 0.475
  key_row_1_offset_in := 0.175
  key_width_in := 0.33
  key_height_in := 0.30
  key_corner_radius_in := 0.025

/-! ## Content-stream operations, `create_registration`, `create_overlay` -/

/-- The calls made on a `ContentStreamString`, as data. The class itself is not part of the
source file; its calls are recorded with their arguments and not interpreted. -/
inductive CSOp (K : Type) where
  | set_line_width (w : K) : CSOp K
  | set_color_space (name : String) (a b : Bool) : CSOp K
  | set_color_black (a b : Bool) : CSOp K
  | move_to (x y : K) : CSOp K
  | line_to (x y : K) : CSOp K
  | rect (w h : K) : CSOp K
  | rounded_rect (w h r : K) : CSOp K
  | path_close_fill_stroke : CSOp K
  | path_close_stroke : CSOp K
  | path_stroke : CSOp K
  | text_center (x y : K) (str font : String) (size : K) : CSOp K
  deriving DecidableEq, Repr

section Overlay
variable {K : Type} [Field K]

/-- `create_registration(page_width_in, page_height_in, geom)`. -/
def create_registration (page_width_in page_height_in : K) (geom : RegistrationGeometry K) :
    List (CSOp K) :=
  [ CSOp.set_line_width geom.line_width_in,
    CSOp.set_color_space "DeviceRGB" true true,
    CSOp.set_color_black true true,
    -- square at top left of cut area
    CSOp.move_to geom.inset_left_in (page_height_in - geom.inset_top_in),
    CSOp.rect geom.square_size_in geom.square_size_in,
    CSOp.path_close_fill_stroke,
    -- right angle at bottom left of cut area
    CSOp.move_to geom.inset_left_in (geom.inset_bottom_in + geom.line_length_in),
    CSOp.line_to geom.inset_left_in geom.inset_bottom_in,
    CSOp.line_to (geom.inset_left_in + geom.line_length_in) geom.inset_bottom_in,
    CSOp.path_stroke,
    -- right angle at top left of cut area (sic)
    CSOp.move_to (page_width_in - geom.inset_right_in - geom.line_length_in)
      (page_height_in - geom.inset_top_in),
    CSOp.line_to (page_width_in - geom.inset_right_in) (page_height_in - geom.inset_top_in),
    CSOp.line_to (page_width_in - geom.inset_right_in)
      (page_height_in - geom.inset_top_in - geom.line_length_in),
    CSOp.path_stroke ]

/-- The body of the inner loop of `create_overlay` for one `(row, col)`, `y` being the value
computed by the outer loop for that row. -/
def create_overlay_cell (geom : OverlayGeometry K) (row : Nat) (y : K) (col : Nat) :
    List (CSOp K) :=
  if row = 3 ∧ col = 5 then
    []  -- ignore bottom half of enter key
  else
    let key_height : K :=
      if row = 2 ∧ col = 5 then geom.key_height_in + geom.key_row_pitch_in  -- tall key
      else geom.key_height_in
    let x : K := geom.width_in / 2.0 - (5 * geom.key_col_pitch_in)
      + (geom.key_col_pitch_in - geom.key_width_in) / 2.0 + col * geom.key_col_pitch_in
    [ CSOp.move_to x y,
      CSOp.rounded_rect geom.key_width_in key_height geom.key_corner_radius_in,
      CSOp.path_close_stroke,
      CSOp.text_center (x + geom.key_width_in / 2.0) (y + 0.03) "Hello" "F1" (6.0 / pt_per_in) ]

/-- The body of the outer loop of `create_overlay` for one `row`. -/
def create_overlay_row (geom : OverlayGeometry K) (row : Nat) : List (CSOp K) :=
  let y : K := geom.height_in - row * geom.key_row_pitch_in - geom.key_row_1_offset_in
  (List.range 10).flatMap (create_overlay_cell geom row y)

/-- `create_overlay(geom)`: the outline, then the key grid. -/
def create_overlay (geom : OverlayGeometry K) : List (CSOp K) :=
  let line_width_mm : K := 0.1
  [ CSOp.set_line_width (line_width_mm / mm_per_in),
    CSOp.set_color_black false true,  -- set stroke color
    CSOp.move_to 0.0 geom.height_in,
    CSOp.rounded_rect geom.width_in geom.height_in geom.corner_radius_in,
    CSOp.path_close_stroke ]
    ++ (List.range 4).flatMap (create_overlay_row geom)

end Overlay

/-- A rounded rectangle as the content stream receives it: the point moved to, then the
size and radius given to `rounded_rect`. -/
structure RoundedRect (K : Type) where
  x : K
  y : K
  w : K
  h : K
  r : K
  deriving DecidableEq, Repr

/-- The rounded rectangles of a content stream, in order; `cur` is the current point. -/
def roundedRectsFrom {K : Type} (cur : K × K) : List (CSOp K) → List (RoundedRect K)
  | [] => []
  | CSOp.move_to x y :: ops => roundedRectsFrom (x, y) ops
  | CSOp.line_to x y :: ops => roundedRectsFrom (x, y) ops
  | CSOp.rounded_rect w h r :: ops => ⟨cur.1, cur.2, w, h, r⟩ :: roundedRectsFrom cur ops
  | _ :: ops => roundedRectsFrom cur ops

/-- The key rounded rectangles emitted by `create_overlay`: all but the outline, which is
the first rounded rectangle of the stream. -/
def overlayKeys {K : Type} [Field K] (geom : OverlayGeometry K) : List (RoundedRect K) :=
  (roundedRectsFrom (0, 0) (create_overlay geom)).tail

/-- The cells of the 4 x 10 grid in row-major order, `(3, 5)` left out. -/
def keyCells : List (Nat × Nat) :=
  (List.product (List.range 4) (List.range 10)).filter (fun c => ¬ (c.1 = 3 ∧ c.2 = 5))

/-- The rounded rectangle expected for the key of cell `(row, col)`. -/
def keyRectAt {K : Type} [Field K] (geom : OverlayGeometry K) (c : Nat × Nat) : RoundedRect K where
  x := geom.width_in / 2.0 - (5 * geom.key_col_pitch_in)
      + (geom.key_col_pitch_in - geom.key_width_in) / 2.0 + c.2 * geom.key_col_pitch_in
  y := geom.height_in - c.1 * geom.key_row_pitch_in - geom.key_row_1_offset_in
  w := geom.key_width_in
  h := if c.1 = 2 ∧ c.2 = 5 then geom.key_height_in + geom.key_row_pitch_in else geom.key_height_in
  r := geom.key_corner_radius_in

/-! ## `createPageContents`: the page tiler

Two features of the C++ are kept explicit. A `double` division by zero does not trap: it
yields an infinity or a NaN, which the later subtraction and comparison consume. And the
three layout variables are function-local `static`s: each is initialised by the first call
that reaches its declaration and keeps its value afterwards, while the statements between
the declarations run on every call. Signed `int` overflow and an out-of-range conversion to
`int` are undefined behaviour, modelled as `none`. -/

/-- A `double` that may have left the finite range. -/
inductive Dbl (K : Type) where
  | fin (x : K) : Dbl K
  | posInf : Dbl K
  | negInf : Dbl K
  | nan : Dbl K
  deriving DecidableEq, Repr

section Tiler
variable {K : Type} [LinearOrderedField K]

/-- IEEE division `a / b` of finite operands (`b` a positive zero when it is zero). -/
def Dbl.div (a b : K) : Dbl K :=
  if b = 0 then (if 0 < a then Dbl.posInf else if a < 0 then Dbl.negInf else Dbl.nan)
  else Dbl.fin (a / b)

/-- IEEE subtraction `a - d` of a possibly non-finite `d` from a finite `a`. -/
def Dbl.rsub (a : K) : Dbl K → Dbl K
  | Dbl.fin x => Dbl.fin (a - x)
  | Dbl.posInf => Dbl.negInf
  | Dbl.negInf => Dbl.posInf
  | Dbl.nan => Dbl.nan

/-- IEEE product `a * d` of a finite `a` and a possibly non-finite `d`. -/
def Dbl.lmul (a : K) : Dbl K → Dbl K
  | Dbl.fin x => Dbl.fin (a * x)
  | Dbl.posInf => if 0 < a then Dbl.posInf else if a < 0 then Dbl.negInf else Dbl.nan
  | Dbl.negInf => if 0 < a then Dbl.negInf else if a < 0 then Dbl.posInf else Dbl.nan
  | Dbl.nan => Dbl.nan

/-- IEEE comparison `d < b` with `b` finite: false on a NaN. -/
def Dbl.lt (d : Dbl K) (b : K) : Bool :=
  match d with
  | Dbl.fin x => decide (x < b)
  | Dbl.posInf => false
  | Dbl.negInf => true
  | Dbl.nan => false

def INT_MIN : ℤ := -2 ^ 31
def INT_MAX : ℤ := 2 ^ 31 - 1

/-- Conversion of a `double` to `int`: the fractional part is discarded; undefined when the
value is not finite or the truncated value is not an `int`. -/
def doubleToInt [FloorRing K] : Dbl K → Option ℤ
  | Dbl.fin x =>
      let z : ℤ := if 0 ≤ x then ⌊x⌋ else ⌈x⌉
      if INT_MIN ≤ z ∧ z ≤ INT_MAX then some z else none
  | _ => none

/-- The `int` expression `n - 1` (also `n--`): undefined on overflow. -/
def intPred (n : ℤ) : Option ℤ :=
  if INT_MIN ≤ n - 1 then some (n - 1) else none

/-- The function-local statics of `createPageContents`, once initialised. -/
structure TilerStatics (K : Type) where
  available_height_in : K
  y_count : ℤ
  overlay_y_gap_in : Dbl K
  deriving DecidableEq, Repr

/-- What `createPageContents` concatenates into `contents`. -/
inductive ContentItem (K : Type) where
  /-- The `"q "` pieces: push the graphics state. -/
  | q : ContentItem K
  /-- The `"Q\n"` pieces: pop the graphics state. -/
  | Q : ContentItem K
  /-- The piece `"s 0 0 s 0 0 cm "`: scale to inch coordinates. -/
  | scale (s : K) : ContentItem K
  /-- The piece `"1 0 0 1 left bottom cm\n"`: the placement of one overlay copy. -/
  | place (left : K) (bottom : Dbl K) : ContentItem K
  /-- One content-stream call of `create_registration` or `create_overlay`. -/
  | draw (op : CSOp K) : ContentItem K
  deriving DecidableEq, Repr

/-- Initialiser of `static double available_height_in`. -/
def init_available_height_in (page_height_in : K) : K :=
  page_height_in - PAGE_INSET_TOP_IN - PAGE_INSET_BOTTOM_IN

/-- Initialiser of `static int y_count`. -/
def init_y_count [FloorRing K] (available_height_in : K) (geom : OverlayGeometry K) :
    Option ℤ :=
  doubleToInt (Dbl.div available_height_in geom.height_in)

/-- The left-hand side of the comparison in the `if`:
`available_height_in - ((y_count * geom.height_in) / (y_count - 1))`. -/
def gap_check_value (available_height_in : K) (geom : OverlayGeometry K) (y_count : ℤ) :
    Option (Dbl K) := do
  let d ← intPred y_count
  pure (Dbl.rsub available_height_in (Dbl.div (y_count * geom.height_in) d))

/-- The statement `if (... < OVERLAY_MINIMUM_Y_GAP_IN) y_count--;`: the count after it. -/
def gap_check (available_height_in : K) (geom : OverlayGeometry K) (y_count : ℤ) :
    Option ℤ := do
  let v ← gap_check_value available_height_in geom y_count
  if Dbl.lt v OVERLAY_MINIMUM_Y_GAP_IN then intPred y_count else pure y_count

/-- Initialiser of `static double overlay_y_gap_in`:
`(available_height_in - (y_count * geom.height_in)) / (y_count - 1)`. -/
def init_overlay_y_gap_in (available_height_in : K) (geom : OverlayGeometry K) (y_count : ℤ) :
    Option (Dbl K) := do
  let d ← intPred y_count
  pure (Dbl.div (available_height_in - y_count * geom.height_in) d)

/-- The body of the placement loop for the copy index `y`. -/
def place_copy (page_width_in page_height_in : K) (geom : OverlayGeometry K)
    (overlay_y_gap_in : Dbl K) (y : Nat) : List (ContentItem K) :=
  let left : K := (page_width_in - geom.width_in) / 2.0
  let bottom : Dbl K :=
    Dbl.rsub (page_height_in - PAGE_INSET_TOP_IN - ((y + 1 : Nat) * geom.height_in))
      (Dbl.lmul y overlay_y_gap_in)
  [ContentItem.q, ContentItem.place left bottom]
    ++ (create_overlay geom).map ContentItem.draw
    ++ [ContentItem.Q]

/-- Lines 158 to 162 of `createPageContents`: the three statics and the `if` between them.
`statics` is `none` on the first call and holds the statics left by the previous call
afterwards; an initialiser runs on the first call only, the `if` on every call. -/
def createPageContents_statics [FloorRing K] (statics : Option (TilerStatics K))
    (page_height_in : K) (geom : OverlayGeometry K) : Option (TilerStatics K) := do
  let available_height_in : K :=
    match statics with
    | some s => s.available_height_in
    | none => init_available_height_in page_height_in
  let y_count0 ←
    match statics with
    | some s => some s.y_count
    | none => init_y_count available_height_in geom
  let y_count ← gap_check available_height_in geom y_count0
  let overlay_y_gap_in ←
    match statics with
    | some s => some s.overlay_y_gap_in
    | none => init_overlay_y_gap_in available_height_in geom y_count
  pure ⟨available_height_in, y_count, overlay_y_gap_in⟩

/-- The rest of `createPageContents`: the value of `contents`. The loop is the one the
source runs, `for (int y = 1; y < 2; y++)`. -/
def createPageContents_contents (page_width_in page_height_in : K) (geom : OverlayGeometry K)
    (show_reg_marks : Bool) (overlay_y_gap_in : Dbl K) : List (ContentItem K) :=
  [ContentItem.q, ContentItem.scale pt_per_in]
    ++ (if show_reg_marks then
          (create_registration page_width_in page_height_in
            cameo4_no_mat_reg_geometry).map ContentItem.draw
        else [])
    ++ (List.range' 1 (2 - 1)).flatMap
          (place_copy page_width_in page_height_in geom overlay_y_gap_in)
    ++ [ContentItem.Q]

/-- `createPageContents(pdf, page_width_in, page_height_in, geom, show_outlines,
show_reg_marks)`: the statics after the call and the contents of the stream returned.
`show_outlines` is not read by the body. -/
def createPageContents [FloorRing K] (statics : Option (TilerStatics K))
    (page_width_in page_height_in : K) (geom : OverlayGeometry K)
    (_show_outlines show_reg_marks : Bool) :
    Option (TilerStatics K × List (ContentItem K)) := do
  let s ← createPageContents_statics statics page_height_in geom
  pure (s, createPageContents_contents page_width_in page_height_in geom show_reg_marks
    s.overlay_y_gap_in)

end Tiler

/-- The placements `(left, bottom)` written into page contents, in order. -/
def placements {K : Type} : List (ContentItem K) → List (K × Dbl K)
  | [] => []
  | ContentItem.place l b :: items => (l, b) :: placements items
  | _ :: items => placements items

/-- What one call of `createPageContents` lets a caller observe of the layout: the copy
count, the gap and the placements. -/
structure Layout (K : Type) where
  y_count : ℤ
  overlay_y_gap_in : Dbl K
  placements : List (K × Dbl K)
  deriving DecidableEq, Repr

/-- The layout of a finished call. -/
def layoutOf {K : Type} (r : TilerStatics K × List (ContentItem K)) : Layout K :=
  ⟨r.1.y_count, r.1.overlay_y_gap_in, placements r.2⟩

/-- Two successive calls of `createPageContents` with the same arguments, the second one
finding the statics the first one left: the two layouts. -/
def createPageContents_twice {K : Type} [LinearOrderedField K] [FloorRing K]
    (page_width_in page_height_in : K) (geom : OverlayGeometry K)
    (show_outlines show_reg_marks : Bool) : Option (Layout K × Layout K) := do
  let r1 ← createPageContents none page_width_in page_height_in geom show_outlines
    show_reg_marks
  let r2 ← createPageContents (some r1.1) page_width_in page_height_in geom show_outlines
    show_reg_marks
  pure (layoutOf r1, layoutOf r2)

/-- The `hp` profile with another overlay height. -/
def hp_with_height {K : Type} [Field K] (height_in : K) : OverlayGeometry K :=
  { (hp_geometry : OverlayGeometry K) with height_in := height_in }

/-! ## `conflicting_options` and `main` -/

/-- What `conflicting_options` and `main` read of an entry of a `po::variables_map`. -/
structure variable_value where
  defaulted : Bool
  deriving DecidableEq, Repr

/-- A `po::variables_map`, read by option name: `none` where `vm.count(name)` is 0. -/
abbrev variables_map := String → Option variable_value

/-- The count `vm.count(name)`. -/
def variables_map.count (vm : variables_map) (name : String) : Nat :=
  if (vm name).isSome then 1 else 0

/-- The test `vm.count(name) && !vm[name].defaulted()`. -/
def isSet (vm : variables_map) (name : String) : Bool :=
  match vm name with
  | some v => !v.defaulted
  | none => false

/-- The message of the `std::logic_error` thrown for the pair `*it1`, `*it2`. -/
def conflictMessage (it1 it2 : String) : String :=
  "Conflicting options `" ++ it1 ++ "' and '" ++ it2 ++ "'."

/-- The inner loop of `conflicting_options`: `it2` runs over the options after `it1`. -/
def conflicting_options_inner (vm : variables_map) (it1 : String) :
    List String → Except String Unit
  | [] => pure ()
  | it2 :: rest =>
      if isSet vm it1 && isSet vm it2 then
        throw (conflictMessage it1 it2)
      else conflicting_options_inner vm it1 rest

/-- The outer loop of `conflicting_options`, from `it1` on: the value of `found` after it. -/
def conflicting_options_outer (vm : variables_map) (found : Bool) :
    List String → Except String Bool
  | [] => pure found
  | it1 :: rest =>
      if isSet vm it1 then do
        conflicting_options_inner vm it1 rest
        conflicting_options_outer vm true rest
      else
        conflicting_options_outer vm found rest

/-- `conflicting_options(vm, list, required)`; a thrown `std::logic_error` is `Except.error`
with its message. -/
def conflicting_options (vm : variables_map) (list : List String) (required : Bool) :
    Except String Unit := do
  let found ← conflicting_options_outer vm false list
  if required && !found then throw "No option in group set" else pure ()

/-- Which of the two compiled-in profiles `geom` points to. -/
inductive GeomRef where
  | hp_geometry : GeomRef
  | sm_geometry : GeomRef
  deriving DecidableEq, Repr

/-- The local variables of `main` at the end of the `try` block. -/
structure MainVars where
  type : String
  model : String
  do_reg_marks : Bool
  do_outlines : Bool
  do_legends : Bool
  geom : Option GeomRef
  deriving DecidableEq, Repr

/-- The ways `main` ends. -/
inductive MainResult where
  /-- The help text was printed; exit status 0. -/
  | help : MainResult
  /-- An exception was caught and its message printed; exit status 1. -/
  | error (what : String) : MainResult
  /-- The call `create_pdf(filename, *geom, do_outlines, do_reg_marks)` was made; exit
  status 0. The variables are those at the end of the `try` block. -/
  | create_pdf (filename : String) (vars : MainVars) : MainResult
  deriving DecidableEq, Repr

/-- The long names of the options `main` declares in `desc`. -/
def declared_options : List String :=
  ["help", "cut", "print", "all", "hp", "sm", "output"]

/-- The variables map stored from a command line on which exactly the options of `given`
occur. None of the options `main` declares has a default value, so no entry is defaulted. -/
def store (given : List String) : variables_map :=
  fun name => if name ∈ given then some ⟨false⟩ else none

/-- The call `po::store(po::parse_command_line(argc, argv, desc), vm)` on a command line whose
options, by long name, are `given`. The Boost library throws on an option that is not
declared and on an option given twice; the messages are worded as Boost words them. -/
def parse_command_line (given : List String) : Except String variables_map :=
  match given.find? (fun name => name ∉ declared_options) with
  | some name => throw ("unrecognised option '--" ++ name ++ "'")
  | none =>
    if given.Nodup then pure (store given)
    else throw "option cannot be specified more than once"

/-- The three `if (vm.count(...))` blocks of `main` that set the mode. -/
def main_mode (vm : variables_map) (v : MainVars) : MainVars :=
  let v := if vm.count "cut" ≠ 0 then { v with type := "cut", do_outlines := true } else v
  let v := if vm.count "print" ≠ 0 then
      { v with type := "print", do_reg_marks := true, do_legends := true } else v
  let v := if vm.count "all" ≠ 0 then
      { v with type := "all", do_reg_marks := true, do_legends := true, do_outlines := false }
    else v
  v

/-- The `if (vm.count("sm")) ... else ...` block of `main`. -/
def main_model (vm : variables_map) (v : MainVars) : MainVars :=
  if vm.count "sm" ≠ 0 then { v with model := "dm1xl", geom := some GeomRef.sm_geometry }
  else { v with model := "voyager", geom := some GeomRef.hp_geometry }

/-- `main`, on a command line whose options are `given`. -/
def main (given : List String) : MainResult :=
  let v0 : MainVars := ⟨"", "", false, false, false, none⟩
  match parse_command_line given with
  | Except.error what => MainResult.error what
  | Except.ok vm =>
    if vm.count "help" ≠ 0 then MainResult.help
    else
      match conflicting_options vm ["cut", "print", "all"] true with
      | Except.error what => MainResult.error what
      | Except.ok _ =>
        match conflicting_options vm ["hp", "sm"] false with
        | Except.error what => MainResult.error what
        | Except.ok _ =>
          let v := main_model vm (main_mode vm v0)
          MainResult.create_pdf (v.model ++ "-overlay-" ++ v.type ++ ".pdf") v

/-! ## Reading a content stream and classifying painter calls -/

/-- A rectangle as the content stream receives it: the point moved to, then the size given
to `rect`. -/
structure RectAt (K : Type) where
  x : K
  y : K
  w : K
  h : K
  deriving DecidableEq, Repr

/-- The rectangles of a content stream, in order; `cur` is the current point. -/
def rectsFrom {K : Type} (cur : K × K) : List (CSOp K) → List (RectAt K)
  | [] => []
  | CSOp.move_to x y :: ops => rectsFrom (x, y) ops
  | CSOp.line_to x y :: ops => rectsFrom (x, y) ops
  | CSOp.rect w h :: ops => ⟨cur.1, cur.2, w, h⟩ :: rectsFrom cur ops
  | _ :: ops => rectsFrom cur ops

/-- The straight segments of a content stream, in drawing order; `cur` is the current
point. -/
def csLineSegsFrom {K : Type} (cur : K × K) : List (CSOp K) → List (LineSeg K)
  | [] => []
  | CSOp.move_to x y :: ops => csLineSegsFrom (x, y) ops
  | CSOp.line_to x y :: ops => ⟨cur, (x, y)⟩ :: csLineSegsFrom (x, y) ops
  | _ :: ops => csLineSegsFrom cur ops

/-- Modelled from the spec: the class `ContentStreamString` is not part of the source file,
so what its `rect` call draws is taken from the spec (4.2, item 1) and from the comment
`top left` on the `move_to` before it: the rectangle of the given size whose top-left
corner is the current point, in page coordinates whose y axis points up. The corners are
listed top left, top right, bottom right, bottom left. -/
def rectCorners {K : Type} [CommRing K] (r : RectAt K) : List (K × K) :=
  [ (r.x, r.y), (r.x + r.w, r.y), (r.x + r.w, r.y - r.h), (r.x, r.y - r.h) ]

/-- The kind of a painter call, as far as the shape of a path goes. -/
inductive OpKind where
  | move : OpKind
  | line : OpKind
  | curve : OpKind
  | other : OpKind
  deriving DecidableEq, Repr

/-- The kind of a painter call. -/
def opKind {K : Type} : PainterOp K → OpKind
  | PainterOp.MoveTo _ _ => OpKind.move
  | PainterOp.LineTo _ _ => OpKind.line
  | PainterOp.CubicBezierTo _ _ _ _ _ _ => OpKind.curve
  | _ => OpKind.other

/-- The sharp corners of the rectangle, in the order in which `RoundedRectangle` rounds
them: bottom right, top right, top left, bottom left. -/
def arcCorners {K : Type} [CommRing K] (dX dY dWidth dHeight : K) : List (K × K) :=
  [ (dX + dWidth, dY), (dX + dWidth, dY + dHeight), (dX, dY + dHeight), (dX, dY) ]

/-! ## Theorems -/

/-! ### `RoundedRectangle` -/

/-- The four cubic segments of the path of `RoundedRectangle`, wherever the pen starts. -/
theorem cubicSegsFrom_RoundedRectangle {K : Type} [CommRing K] [OfScientific K]
    (cur : K × K) (dX dY dWidth dHeight dRoundX dRoundY : K) :
    cubicSegsFrom cur (RoundedRectangle dX dY dWidth dHeight dRoundX dRoundY) =
      [ ⟨(dX + dWidth - dRoundX, dY), (dX + dWidth - dRoundX * arc_magic, dY),
          (dX + dWidth, dY + dRoundY * arc_magic), (dX + dWidth, dY + dRoundY)⟩,
        ⟨(dX + dWidth, dY + dHeight - dRoundY),
          (dX + dWidth, dY + dHeight - dRoundY * arc_magic),
          (dX + dWidth - dRoundX * arc_magic, dY + dHeight),
          (dX + dWidth - dRoundX, dY + dHeight)⟩,
        ⟨(dX + dRoundX, dY + dHeight), (dX + dRoundX * arc_magic, dY + dHeight),
          (dX, dY + dHeight - dRoundY * arc_magic), (dX, dY + dHeight - dRoundY)⟩,
        ⟨(dX, dY + dRoundY), (dX, dY + dRoundY * arc_magic),
          (dX + dRoundX * arc_magic, dY), (dX + dRoundX, dY)⟩ ] := by
  simp [cubicSegsFrom, RoundedRectangle, penAfter]

/-- At `t = 1/2` each corner arc of `RoundedRectangle`, drawn with both radii `r > 0`, is at
squared distance `r^2 * (7 - 3 * arc_magic)^2 / 32` from its corner centre, so at less than
`0.95 * r` from it: the control points lie `arc_magic * r` from the sharp corner, which
leaves them only `(1 - arc_magic) * r` from the ends of the arc. -/
theorem arc_midpoint_distance (dX dY dWidth dHeight r : ℝ) (hr : 0 < r) :
    List.Forall₂ (fun seg c => Real.sqrt (distSq (seg.eval (1 / 2)) c) < 0.95 * r)
      (cubicSegsFrom (0, 0) (RoundedRectangle dX dY dWidth dHeight r r))
      (cornerCentres dX dY dWidth dHeight r) := by
  have h95 : (0 : ℝ) < 0.95 * r := by positivity
  have key : ∀ a b : ℝ, a ^ 2 = (r * (7 - 3 * arc_magic) / 8) ^ 2 →
      b ^ 2 = (r * (7 - 3 * arc_magic) / 8) ^ 2 → Real.sqrt (a ^ 2 + b ^ 2) < 0.95 * r := by
    intro a b ha hb
    rw [Real.sqrt_lt' h95, ha, hb]
    have : 0 < r ^ 2 := by positivity
    norm_num [arc_magic]
    nlinarith
  rw [cubicSegsFrom_RoundedRectangle]
  simp only [cornerCentres, List.forall₂_cons, List.forall₂_nil_left_iff, and_true,
    CubicSeg.eval, distSq]
  refine ⟨key _ _ ?_ ?_, key _ _ ?_ ?_, key _ _ ?_ ?_, key _ _ ?_ ?_⟩ <;> ring

/-- C1 (code defect). `create_pdf` calls `button(painter, 4.25, 5.5, 1.0, 1.0, 0.025)`,
that is `RoundedRectangle(painter, 3.75, 5.0, 1.0, 1.0, 0.025, 0.025)`, with
`r = 0.025 <= min(dWidth, dHeight)/2`. The path has four cubic arcs, and on every one of
them the point at `t = 1/2` is at distance `d < 0.95 * r` from the centre of that corner,
so `|d - r| <= 0.001 * r` fails: the arcs are not within the claimed tolerance of the
circular quarter arcs. -/
theorem RoundedRectangle_arcs_off_circle :
    (0.025 : ℝ) ≤ min 1 1 / 2 ∧
    (cubicSegsFrom (0, 0) (RoundedRectangle (3.75 : ℝ) 5 1 1 0.025 0.025)).length = 4 ∧
    List.Forall₂
      (fun seg c => Real.sqrt (distSq (seg.eval (1 / 2)) c) < 0.95 * 0.025 ∧
        ¬ |Real.sqrt (distSq (seg.eval (1 / 2)) c) - 0.025| ≤ 0.001 * 0.025)
      (cubicSegsFrom (0, 0) (RoundedRectangle (3.75 : ℝ) 5 1 1 0.025 0.025))
      (cornerCentres 3.75 5 1 1 0.025) := by
  refine ⟨by norm_num, by rw [cubicSegsFrom_RoundedRectangle]; rfl, ?_⟩
  refine (arc_midpoint_distance 3.75 5 1 1 0.025 (by norm_num)).imp ?_
  intro seg c h
  refine ⟨h, fun hle => ?_⟩
  have := (abs_le.mp hle).1
  norm_num at this h
  linarith

/-- C2. For every `dX, dY, dWidth, dHeight` (in any commutative ring, hence with no division
at hand), the path of `RoundedRectangle` with both radii 0 is the move to `(dX, dY)` followed
by the four sides of the plain rectangle, each followed by a cubic segment all of whose
points are the corner just reached: every anchor and control point is one of the four
square corners, the line segments are the four sides in the order of `squareCorners`, and
each cubic segment collapses to one corner. -/
theorem RoundedRectangle_zero_radius {K : Type} [CommRing K] [OfScientific K]
    (cur : K × K) (dX dY dWidth dHeight : K) :
    (∀ p ∈ pathPoints (RoundedRectangle dX dY dWidth dHeight 0 0),
        p ∈ squareCorners dX dY dWidth dHeight) ∧
    lineSegsFrom cur (RoundedRectangle dX dY dWidth dHeight 0 0) =
      [ ⟨(dX, dY), (dX + dWidth, dY)⟩,
        ⟨(dX + dWidth, dY), (dX + dWidth, dY + dHeight)⟩,
        ⟨(dX + dWidth, dY + dHeight), (dX, dY + dHeight)⟩,
        ⟨(dX, dY + dHeight), (dX, dY)⟩ ] ∧
    cubicSegsFrom cur (RoundedRectangle dX dY dWidth dHeight 0 0) =
      [ ⟨(dX + dWidth, dY), (dX + dWidth, dY), (dX + dWidth, dY), (dX + dWidth, dY)⟩,
        ⟨(dX + dWidth, dY + dHeight), (dX + dWidth, dY + dHeight),
          (dX + dWidth, dY + dHeight), (dX + dWidth, dY + dHeight)⟩,
        ⟨(dX, dY + dHeight), (dX, dY + dHeight), (dX, dY + dHeight), (dX, dY + dHeight)⟩,
        ⟨(dX, dY), (dX, dY), (dX, dY), (dX, dY)⟩ ] ∧
    RoundedRectangle dX dY dWidth dHeight 0 0 =
      [ MoveTo dX dY,
        LineTo (dX + dWidth) dY,
        CubicBezierTo (dX + dWidth) dY (dX + dWidth) dY (dX + dWidth) dY,
        LineTo (dX + dWidth) (dY + dHeight),
        CubicBezierTo (dX + dWidth) (dY + dHeight) (dX + dWidth) (dY + dHeight)
          (dX + dWidth) (dY + dHeight),
        LineTo dX (dY + dHeight),
        CubicBezierTo dX (dY + dHeight) dX (dY + dHeight) dX (dY + dHeight),
        LineTo dX dY,
        CubicBezierTo dX dY dX dY dX dY ] := by
  have hpath : RoundedRectangle dX dY dWidth dHeight 0 0 =
      [ MoveTo dX dY,
        LineTo (dX + dWidth) dY,
        CubicBezierTo (dX + dWidth) dY (dX + dWidth) dY (dX + dWidth) dY,
        LineTo (dX + dWidth) (dY + dHeight),
        CubicBezierTo (dX + dWidth) (dY + dHeight) (dX + dWidth) (dY + dHeight)
          (dX + dWidth) (dY + dHeight),
        LineTo dX (dY + dHeight),
        CubicBezierTo dX (dY + dHeight) dX (dY + dHeight) dX (dY + dHeight),
        LineTo dX dY,
        CubicBezierTo dX dY dX dY dX dY ] := by
    simp [RoundedRectangle]
  rw [hpath]
  refine ⟨?_, ?_, ?_, rfl⟩
  · simp [pathPoints, opPoints, squareCorners]
  · simp [lineSegsFrom, penAfter]
  · simp [cubicSegsFrom, penAfter]

/-! ### `create_overlay` -/

/-- The cells of `keyCells`, written out. -/
theorem keyCells_eq : keyCells =
    [ (0, 0), (0, 1), (0, 2), (0, 3), (0, 4), (0, 5), (0, 6), (0, 7), (0, 8), (0, 9),
      (1, 0), (1, 1), (1, 2), (1, 3), (1, 4), (1, 5), (1, 6), (1, 7), (1, 8), (1, 9),
      (2, 0), (2, 1), (2, 2), (2, 3), (2, 4), (2, 5), (2, 6), (2, 7), (2, 8), (2, 9),
      (3, 0), (3, 1), (3, 2), (3, 3), (3, 4), (3, 6), (3, 7), (3, 8), (3, 9) ] := by
  decide

/-- C3. For every `OverlayGeometry`, the rounded rectangles of `create_overlay` are the
outline followed by exactly 39 key rectangles: the key of each cell of `keyCells`, in that
order. `keyCells` holds exactly the cells `(row, col)` with `row < 4`, `col < 10` other than
`(3, 5)`, in strictly increasing row-major order (so each once), and the key of `(2, 5)` is
the only one with the tall height `key_height_in + key_row_pitch_in`. -/
theorem create_overlay_keys {K : Type} [Field K] (geom : OverlayGeometry K) :
    roundedRectsFrom (0, 0) (create_overlay geom) =
      ⟨0.0, geom.height_in, geom.width_in, geom.height_in, geom.corner_radius_in⟩
        :: overlayKeys geom ∧
    (overlayKeys geom).length = 39 ∧
    overlayKeys geom = keyCells.map (keyRectAt geom) ∧
    (∀ row col : Nat, (row, col) ∈ keyCells ↔ row < 4 ∧ col < 10 ∧ ¬ (row = 3 ∧ col = 5)) ∧
    keyCells.Pairwise (fun a b => a.1 < b.1 ∨ (a.1 = b.1 ∧ a.2 < b.2)) ∧
    keyCells.count (2, 5) = 1 ∧
    (∀ c ∈ keyCells, (keyRectAt geom c).h =
      if c = (2, 5) then geom.key_height_in + geom.key_row_pitch_in
      else geom.key_height_in) := by
  have hkeys : overlayKeys geom = keyCells.map (keyRectAt geom) := by
    rw [keyCells_eq]
    simp [overlayKeys, create_overlay, create_overlay_row, create_overlay_cell,
      List.range_succ, roundedRectsFrom, keyRectAt]
  refine ⟨?_, ?_, hkeys, ?_, by decide, by decide, ?_⟩
  · simp [overlayKeys, create_overlay, roundedRectsFrom]
  · rw [hkeys, List.length_map]; decide
  · intro row col
    simp only [keyCells, List.mem_filter, List.pair_mem_product, List.mem_range, and_assoc,
      decide_eq_true_eq]
  · intro c _
    simp [keyRectAt, Prod.ext_iff]

/-! ### `createPageContents` -/

theorem doubleToInt_fin_nonneg {K : Type} [LinearOrderedField K] [FloorRing K] (x : K) (z : ℤ)
    (h0 : 0 ≤ x) (h1 : (z : K) ≤ x) (h2 : x < z + 1) (h3 : INT_MIN ≤ z) (h4 : z ≤ INT_MAX) :
    doubleToInt (Dbl.fin x) = some z := by
  have hz : ⌊x⌋ = z := Int.floor_eq_iff.mpr ⟨h1, h2⟩
  simp [doubleToInt, h0, hz, h3, h4]

/-- The initial count is `z` when `z * height <= available < (z + 1) * height`. -/
theorem init_y_count_eq {K : Type} [LinearOrderedField K] [FloorRing K]
    (avail : K) (geom : OverlayGeometry K) (z : ℤ) (hh : 0 < geom.height_in)
    (h0 : 0 ≤ avail) (h1 : (z : K) * geom.height_in ≤ avail)
    (h2 : avail < (z + 1) * geom.height_in) (h3 : INT_MIN ≤ z) (h4 : z ≤ INT_MAX) :
    init_y_count avail geom = some z := by
  unfold init_y_count Dbl.div
  rw [if_neg hh.ne']
  exact doubleToInt_fin_nonneg _ z (div_nonneg h0 hh.le) ((le_div_iff₀ hh).mpr h1)
    ((div_lt_iff₀ hh).mpr h2) h3 h4

theorem placements_append {K : Type} (l₁ l₂ : List (ContentItem K)) :
    placements (l₁ ++ l₂) = placements l₁ ++ placements l₂ := by
  induction l₁ with
  | nil => rfl
  | cons a l ih => cases a <;> simp [placements, ih]

theorem placements_map_draw {K : Type} (l : List (CSOp K)) :
    placements (l.map ContentItem.draw) = [] := by
  induction l with
  | nil => rfl
  | cons a l ih => simpa [placements] using ih

/-- The placements in the contents: the single copy of index `y = 1`. -/
theorem placements_contents {K : Type} [LinearOrderedField K]
    (page_width_in page_height_in : K) (geom : OverlayGeometry K) (show_reg_marks : Bool)
    (gap : Dbl K) :
    placements (createPageContents_contents page_width_in page_height_in geom show_reg_marks gap)
      = [ ((page_width_in - geom.width_in) / 2.0,
           Dbl.rsub (page_height_in - PAGE_INSET_TOP_IN - ((1 + 1 : Nat) * geom.height_in))
             (Dbl.lmul ((1 : Nat) : K) gap)) ] := by
  cases show_reg_marks <;>
    simp [createPageContents_contents, place_copy, placements_append, placements_map_draw,
      placements]

/-- The statics after a call are those of lines 158 to 162. -/
theorem createPageContents_fst {K : Type} [LinearOrderedField K] [FloorRing K]
    (statics : Option (TilerStatics K)) (page_width_in page_height_in : K)
    (geom : OverlayGeometry K) (show_outlines show_reg_marks : Bool) :
    (createPageContents statics page_width_in page_height_in geom show_outlines
      show_reg_marks).map Prod.fst = createPageContents_statics statics page_height_in geom := by
  unfold createPageContents
  cases createPageContents_statics statics page_height_in geom <;> rfl

/-- The layout of a call, from the statics it leaves. -/
theorem createPageContents_layout {K : Type} [LinearOrderedField K] [FloorRing K]
    (statics : Option (TilerStatics K)) (page_width_in page_height_in : K)
    (geom : OverlayGeometry K) (show_outlines show_reg_marks : Bool) (s : TilerStatics K)
    (hs : createPageContents_statics statics page_height_in geom = some s) :
    createPageContents statics page_width_in page_height_in geom show_outlines show_reg_marks
      = some (s, createPageContents_contents page_width_in page_height_in geom show_reg_marks
          s.overlay_y_gap_in) := by
  unfold createPageContents
  rw [hs]
  rfl

/-- The available height on an 11 in page. -/
theorem available_height_letter : init_available_height_in (11 : ℚ) = 9.351 := by
  norm_num [init_available_height_in, PAGE_INSET_TOP_IN, PAGE_INSET_BOTTOM_IN]

/-- C4 (code defect). On an 11 in page with an overlay 3.1 in high (`height > 0`, available
height 9.351), `createPageContents` starts from the count 3, finds its check value
`9.351 - (3 * 3.1) / 2 = 4.701` not below the minimum gap, keeps the count 3 (`> 1`) and
computes the gap `(9.351 - 3 * 3.1) / 2 = 0.0255`, which is smaller than
`OVERLAY_MINIMUM_Y_GAP_IN`. -/
theorem createPageContents_gap_below_minimum :
    init_y_count (init_available_height_in (11 : ℚ)) (hp_with_height 3.1) = some 3 ∧
    gap_check_value (init_available_height_in (11 : ℚ)) (hp_with_height 3.1) 3
      = some (Dbl.fin 4.701) ∧
    (createPageContents none (8.5 : ℚ) 11 (hp_with_height 3.1) false false).map Prod.fst
      = some ⟨9.351, 3, Dbl.fin 0.0255⟩ ∧
    Dbl.lt (Dbl.fin (0.0255 : ℚ)) OVERLAY_MINIMUM_Y_GAP_IN = true := by
  have h : init_y_count (init_available_height_in (11 : ℚ)) (hp_with_height 3.1) = some 3 := by
    rw [available_height_letter]
    apply init_y_count_eq <;> norm_num [hp_with_height, INT_MIN, INT_MAX]
  refine ⟨h, ?_, ?_, ?_⟩
  · rw [available_height_letter]
    norm_num [gap_check_value, intPred, INT_MIN, Dbl.div, Dbl.rsub, hp_with_height]
  · rw [createPageContents_fst]
    simp only [createPageContents_statics, h]
    rw [available_height_letter]
    norm_num [gap_check, gap_check_value, intPred, INT_MIN, Dbl.div, Dbl.rsub, Dbl.lt,
      init_overlay_y_gap_in, hp_with_height, OVERLAY_MINIMUM_Y_GAP_IN]
  · norm_num [Dbl.lt, OVERLAY_MINIMUM_Y_GAP_IN]

/-- The statics left by the first call for the `hp` profile on an 11 in page. -/
theorem statics_hp_letter :
    createPageContents_statics none (11 : ℚ) hp_geometry = some ⟨9.351, 4, Dbl.fin 0.317⟩ := by
  have h : init_y_count (init_available_height_in (11 : ℚ)) hp_geometry = some 4 := by
    rw [available_height_letter]
    apply init_y_count_eq <;> norm_num [hp_geometry, INT_MIN, INT_MAX]
  simp only [createPageContents_statics, h]
  rw [available_height_letter]
  norm_num [gap_check, gap_check_value, intPred, INT_MIN, Dbl.div, Dbl.rsub, Dbl.lt,
    init_overlay_y_gap_in, hp_geometry, OVERLAY_MINIMUM_Y_GAP_IN]

/-- C7 (as stated, fails). For the `hp` profile on an 11 in page the gap that
`createPageContents` computes is not 0.117 in. -/
theorem createPageContents_hp_gap_ne_0117 :
    (createPageContents none (8.5 : ℚ) 11 hp_geometry false false).map
      (fun r => r.1.overlay_y_gap_in) ≠ some (Dbl.fin 0.117) := by
  rw [createPageContents_layout none 8.5 11 hp_geometry false false _ statics_hp_letter]
  norm_num

/-- C7 (amended). For the `hp` profile (`height_in = 2.10`) on an 11 in page,
`createPageContents` computes the available height 9.351, the initial copy count 4 and the
gap `(9.351 - 4 * 2.10) / 3 = 0.317` in, and keeps the count at 4: its check value
`9.351 - (4 * 2.10) / 3 = 6.551` is not below `OVERLAY_MINIMUM_Y_GAP_IN = 0.1`, and neither
is the gap. -/
theorem createPageContents_hp_letter :
    (hp_geometry : OverlayGeometry ℚ).height_in = 2.10 ∧
    init_available_height_in (11 : ℚ) = 9.351 ∧
    init_y_count (9.351 : ℚ) hp_geometry = some 4 ∧
    (createPageContents none (8.5 : ℚ) 11 hp_geometry false false).map Prod.fst
      = some ⟨9.351, 4, Dbl.fin 0.317⟩ ∧
    ((9.351 : ℚ) - 4 * 2.10) / 3 = 0.317 ∧
    gap_check_value (9.351 : ℚ) hp_geometry 4 = some (Dbl.fin 6.551) ∧
    Dbl.lt (Dbl.fin (6.551 : ℚ)) OVERLAY_MINIMUM_Y_GAP_IN = false ∧
    Dbl.lt (Dbl.fin (0.317 : ℚ)) OVERLAY_MINIMUM_Y_GAP_IN = false ∧
    (OVERLAY_MINIMUM_Y_GAP_IN : ℚ) = 0.1 := by
  refine ⟨rfl, available_height_letter, ?_, ?_, by norm_num, ?_, ?_, ?_, rfl⟩
  · apply init_y_count_eq <;> norm_num [hp_geometry, INT_MIN, INT_MAX]
  · rw [createPageContents_fst, statics_hp_letter]
  · norm_num [gap_check_value, intPred, INT_MIN, Dbl.div, Dbl.rsub, hp_geometry]
  · norm_num [Dbl.lt, OVERLAY_MINIMUM_Y_GAP_IN]
  · norm_num [Dbl.lt, OVERLAY_MINIMUM_Y_GAP_IN]

/-- The statics left by the first call for an overlay 4.65 in high on an 11 in page. -/
theorem statics_first_465 :
    createPageContents_statics none (11 : ℚ) (hp_with_height 4.65)
      = some ⟨9.351, 1, Dbl.posInf⟩ := by
  have h : init_y_count (init_available_height_in (11 : ℚ)) (hp_with_height 4.65) = some 2 := by
    rw [available_height_letter]
    apply init_y_count_eq <;> norm_num [hp_with_height, INT_MIN, INT_MAX]
  simp only [createPageContents_statics, h]
  rw [available_height_letter]
  norm_num [gap_check, gap_check_value, intPred, INT_MIN, Dbl.div, Dbl.rsub, Dbl.lt,
    init_overlay_y_gap_in, hp_with_height, OVERLAY_MINIMUM_Y_GAP_IN]

/-- The statics left by the second call for an overlay 4.65 in high on an 11 in page. -/
theorem statics_second_465 :
    createPageContents_statics (some ⟨9.351, 1, Dbl.posInf⟩) (11 : ℚ) (hp_with_height 4.65)
      = some ⟨9.351, 0, Dbl.posInf⟩ := by
  simp only [createPageContents_statics]
  norm_num [gap_check, gap_check_value, intPred, INT_MIN, Dbl.div, Dbl.rsub, Dbl.lt,
    hp_with_height, OVERLAY_MINIMUM_Y_GAP_IN]

/-- The statics left by the first call for an overlay 0.04 in high on a 1.799 in page. -/
theorem statics_first_004 :
    createPageContents_statics none (1.799 : ℚ) (hp_with_height 0.04)
      = some ⟨0.15, 2, Dbl.fin 0.07⟩ := by
  have ha : init_available_height_in (1.799 : ℚ) = 0.15 := by
    norm_num [init_available_height_in, PAGE_INSET_TOP_IN, PAGE_INSET_BOTTOM_IN]
  have h : init_y_count (init_available_height_in (1.799 : ℚ)) (hp_with_height 0.04)
      = some 3 := by
    rw [ha]
    apply init_y_count_eq <;> norm_num [hp_with_height, INT_MIN, INT_MAX]
  simp only [createPageContents_statics, h]
  rw [ha]
  norm_num [gap_check, gap_check_value, intPred, INT_MIN, Dbl.div, Dbl.rsub, Dbl.lt,
    init_overlay_y_gap_in, hp_with_height, OVERLAY_MINIMUM_Y_GAP_IN]

/-- The statics left by the second call for an overlay 0.04 in high on a 1.799 in page. -/
theorem statics_second_004 :
    createPageContents_statics (some ⟨0.15, 2, Dbl.fin 0.07⟩) (1.799 : ℚ) (hp_with_height 0.04)
      = some ⟨0.15, 1, Dbl.fin 0.07⟩ := by
  simp only [createPageContents_statics]
  norm_num [gap_check, gap_check_value, intPred, INT_MIN, Dbl.div, Dbl.rsub, Dbl.lt,
    hp_with_height, OVERLAY_MINIMUM_Y_GAP_IN]

/-- C8 (code defect). Two successive calls of `createPageContents` with identical arguments,
the statics carried from the first to the second, do not yield the same copy count. On an
8.5 x 11 in page with an overlay 4.65 in high the first call ends with the count 1 and the
second with the count 0; on a page 1.799 in high with an overlay 0.04 in high, where no
division by zero is met, the counts are 2 and then 1. The gap and the placement are the
same in both calls. -/
theorem createPageContents_twice_counts_differ :
    createPageContents_twice (8.5 : ℚ) 11 (hp_with_height 4.65) false false
      = some (⟨1, Dbl.posInf, [(1.925, Dbl.negInf)]⟩, ⟨0, Dbl.posInf, [(1.925, Dbl.negInf)]⟩) ∧
    createPageContents_twice (8.5 : ℚ) 1.799 (hp_with_height 0.04) false false
      = some (⟨2, Dbl.fin 0.07, [(1.925, Dbl.fin 1.024)]⟩,
              ⟨1, Dbl.fin 0.07, [(1.925, Dbl.fin 1.024)]⟩) := by
  constructor
  · unfold createPageContents_twice
    rw [createPageContents_layout none _ _ _ _ _ _ statics_first_465]
    simp only [Option.bind_eq_bind, Option.some_bind]
    rw [createPageContents_layout _ _ _ _ _ _ _ statics_second_465]
    simp only [Option.bind_eq_bind, Option.some_bind, layoutOf, placements_contents]
    norm_num [hp_with_height, hp_geometry, Dbl.lmul, Dbl.rsub, PAGE_INSET_TOP_IN]
  · unfold createPageContents_twice
    rw [createPageContents_layout none _ _ _ _ _ _ statics_first_004]
    simp only [Option.bind_eq_bind, Option.some_bind]
    rw [createPageContents_layout _ _ _ _ _ _ _ statics_second_004]
    simp only [Option.bind_eq_bind, Option.some_bind, layoutOf, placements_contents]
    norm_num [hp_with_height, hp_geometry, Dbl.lmul, Dbl.rsub, PAGE_INSET_TOP_IN]

/-- C9 (code defect). On an 11 in page with an overlay 5 in high the initial copy count is
1, and `createPageContents` does not skip the check: it evaluates the quotient
`(1 * 5) / (1 - 1)`, whose denominator is zero and whose value is `+inf`, finds the check
value `-inf` below the minimum gap, and lowers the count to 0, after which the gap is
`(9.351 - 0) / (0 - 1) = -9.351`. -/
theorem createPageContents_single_copy_divides_by_zero :
    init_y_count (init_available_height_in (11 : ℚ)) (hp_with_height 5) = some 1 ∧
    intPred 1 = some 0 ∧
    Dbl.div (((1 : ℤ) : ℚ) * (hp_with_height 5).height_in) ((0 : ℤ) : ℚ) = Dbl.posInf ∧
    gap_check_value (init_available_height_in (11 : ℚ)) (hp_with_height 5) 1
      = some Dbl.negInf ∧
    gap_check (init_available_height_in (11 : ℚ)) (hp_with_height 5) 1 = some 0 ∧
    (createPageContents none (8.5 : ℚ) 11 (hp_with_height 5) false false).map Prod.fst
      = some ⟨9.351, 0, Dbl.fin (-9.351)⟩ := by
  have h : init_y_count (init_available_height_in (11 : ℚ)) (hp_with_height 5) = some 1 := by
    rw [available_height_letter]
    apply init_y_count_eq <;> norm_num [hp_with_height, INT_MIN, INT_MAX]
  refine ⟨h, by decide, ?_, ?_, ?_, ?_⟩
  · norm_num [Dbl.div, hp_with_height]
  · norm_num [gap_check_value, intPred, INT_MIN, Dbl.div, Dbl.rsub, hp_with_height]
  · norm_num [gap_check, gap_check_value, intPred, INT_MIN, Dbl.div, Dbl.rsub, Dbl.lt,
      hp_with_height, OVERLAY_MINIMUM_Y_GAP_IN]
  · rw [createPageContents_fst]
    simp only [createPageContents_statics, h]
    rw [available_height_letter]
    norm_num [gap_check, gap_check_value, intPred, INT_MIN, Dbl.div, Dbl.rsub, Dbl.lt,
      init_overlay_y_gap_in, hp_with_height, OVERLAY_MINIMUM_Y_GAP_IN]

/-! ### `conflicting_options` and `main` -/

/-- The inner loop, for a set `it1`: it throws for the first set option of the rest. -/
theorem conflicting_options_inner_eq (vm : variables_map) (it1 : String)
    (h1 : isSet vm it1 = true) (rest : List String) :
    conflicting_options_inner vm it1 rest =
      match rest.filter (isSet vm) with
      | [] => Except.ok ()
      | it2 :: _ => Except.error (conflictMessage it1 it2) := by
  induction rest with
  | nil => rfl
  | cons b rest ih =>
    by_cases hb : isSet vm b = true
    · simp [conflicting_options_inner, h1, hb, List.filter_cons, conflictMessage, throw,
        throwThe, MonadExceptOf.throw]
    · simp only [conflicting_options_inner, h1, hb, List.filter_cons, Bool.true_and]
      simpa using ih

/-- The outer loop: it throws for the first two set options, when there are two. -/
theorem conflicting_options_outer_eq (vm : variables_map) (found : Bool) (list : List String) :
    conflicting_options_outer vm found list =
      match list.filter (isSet vm) with
      | [] => Except.ok found
      | [_] => Except.ok true
      | it1 :: it2 :: _ => Except.error (conflictMessage it1 it2) := by
  induction list generalizing found with
  | nil => rfl
  | cons a rest ih =>
    by_cases ha : isSet vm a = true
    · simp only [conflicting_options_outer, ha, if_true, List.filter_cons]
      rw [conflicting_options_inner_eq vm a ha rest, ih true]
      cases hf : rest.filter (isSet vm) with
      | nil => rfl
      | cons b t => rfl
    · simp only [conflicting_options_outer, ha, List.filter_cons]
      simpa using ih found

/-- The result of `conflicting_options`, by the options of `list` that are set. -/
theorem conflicting_options_eq (vm : variables_map) (list : List String) (required : Bool) :
    conflicting_options vm list required =
      match list.filter (isSet vm) with
      | [] => if required then Except.error "No option in group set" else Except.ok ()
      | [_] => Except.ok ()
      | it1 :: it2 :: _ => Except.error (conflictMessage it1 it2) := by
  unfold conflicting_options
  rw [conflicting_options_outer_eq]
  cases hf : list.filter (isSet vm) with
  | nil => cases required <;> rfl
  | cons a t =>
    cases t with
    | nil => cases required <;> rfl
    | cons b u => rfl

/-- C5. `conflicting_options(vm, list, required)` raises an error exactly when at least two
options of `list` are set in `vm`, or `required` holds and none is set. When at least two
are set, the message names the first set option of `list` and the next set one after it.
In particular, with `cut` and `print` both set the required group `cut, print, all` raises
naming `cut` and `print`, and with none of the three set it raises too. -/
theorem conflicting_options_raises (vm : variables_map) (list : List String)
    (required : Bool) :
    ((∃ what, conflicting_options vm list required = Except.error what) ↔
      (2 ≤ (list.filter (isSet vm)).length ∨
        (required = true ∧ (list.filter (isSet vm)).length = 0))) ∧
    (∀ it1 it2 rest, list.filter (isSet vm) = it1 :: it2 :: rest →
      conflicting_options vm list required
        = Except.error ("Conflicting options `" ++ it1 ++ "' and '" ++ it2 ++ "'.")) ∧
    (isSet vm "cut" = true → isSet vm "print" = true →
      conflicting_options vm ["cut", "print", "all"] true
        = Except.error "Conflicting options `cut' and 'print'.") ∧
    (isSet vm "cut" = false → isSet vm "print" = false → isSet vm "all" = false →
      conflicting_options vm ["cut", "print", "all"] true
        = Except.error "No option in group set") := by
  refine ⟨?_, ?_, ?_, ?_⟩
  · rw [conflicting_options_eq]
    cases hf : list.filter (isSet vm) with
    | nil => cases required <;> simp
    | cons a t =>
      cases t with
      | nil => simp
      | cons b u => simp
  · intro it1 it2 rest hf
    rw [conflicting_options_eq, hf]
    rfl
  · intro hc hp
    rw [conflicting_options_eq]
    simp [List.filter_cons, hc, hp, conflictMessage]
  · intro hc hp ha
    rw [conflicting_options_eq]
    simp [List.filter_cons, hc, hp, ha]

/-- C5 at a concrete input: the command line `--cut --print`. -/
theorem conflicting_options_raises_witness :
    isSet (store ["cut", "print"]) "cut" = true ∧
    isSet (store ["cut", "print"]) "print" = true ∧
    conflicting_options (store ["cut", "print"]) ["cut", "print", "all"] true
      = Except.error "Conflicting options `cut' and 'print'." :=
  ⟨by decide, by decide,
    (conflicting_options_raises (store ["cut", "print"]) ["cut", "print", "all"] true).2.2.1
      (by decide) (by decide)⟩

/-- C6 (code defect). With `cut` alone `main` enables the outlines only, and with `print`
alone the registration marks and the legends and not the outlines, as their help texts
say; with `all` alone it enables the registration marks and the legends and leaves
`do_outlines` false, where the help text of `all` reads "all (registration, legends, and
cut marks)". -/
theorem main_intent_flags :
    main ["cut"] = MainResult.create_pdf "voyager-overlay-cut.pdf"
      { type := "cut", model := "voyager", do_reg_marks := false, do_outlines := true,
        do_legends := false, geom := some GeomRef.hp_geometry } ∧
    main ["print"] = MainResult.create_pdf "voyager-overlay-print.pdf"
      { type := "print", model := "voyager", do_reg_marks := true, do_outlines := false,
        do_legends := true, geom := some GeomRef.hp_geometry } ∧
    main ["all"] = MainResult.create_pdf "voyager-overlay-all.pdf"
      { type := "all", model := "voyager", do_reg_marks := true, do_outlines := false,
        do_legends := true, geom := some GeomRef.hp_geometry } := by
  decide

theorem isSet_store (given : List String) (name : String) :
    isSet (store given) name = decide (name ∈ given) := by
  unfold isSet store
  by_cases h : name ∈ given <;> simp [h]

theorem count_store (given : List String) (name : String) :
    (store given).count name ≠ 0 ↔ name ∈ given := by
  unfold variables_map.count store
  by_cases h : name ∈ given <;> simp [h]

/-- A command line of declared options, none of them twice, is stored as given. -/
theorem parse_command_line_eq (given : List String)
    (hdecl : ∀ name ∈ given, name ∈ declared_options) (hnodup : given.Nodup) :
    parse_command_line given = Except.ok (store given) := by
  have hfind : given.find? (fun name => name ∉ declared_options) = none := by
    rw [List.find?_eq_none]
    intro name hname
    simpa using hdecl name hname
  simp only [parse_command_line, hfind, hnodup, if_true]
  rfl

/-- C10. For every command line (of declared options, none given twice, `help` not among
them) whose options pass both `conflicting_options` checks of `main`, exactly one of `cut`,
`print`, `all` is set, and `main` calls `create_pdf` with the file name
`model + "-overlay-" + mode + ".pdf"`, where `mode` is that one option (so not empty) and
`model` is `dm1xl` when `sm` is given and `voyager` otherwise: the name is one of the six
names. -/
theorem main_filename (given : List String)
    (hdecl : ∀ name ∈ given, name ∈ declared_options) (hnodup : given.Nodup)
    (hhelp : "help" ∉ given)
    (h1 : conflicting_options (store given) ["cut", "print", "all"] true = Except.ok ())
    (h2 : conflicting_options (store given) ["hp", "sm"] false = Except.ok ()) :
    ∃ mode vars,
      ["cut", "print", "all"].filter (isSet (store given)) = [mode] ∧
      mode ≠ "" ∧
      vars.type = mode ∧
      vars.model = (if "sm" ∈ given then "dm1xl" else "voyager") ∧
      main given = MainResult.create_pdf (vars.model ++ "-overlay-" ++ mode ++ ".pdf") vars ∧
      vars.model ++ "-overlay-" ++ mode ++ ".pdf" ∈
        [ "voyager-overlay-cut.pdf", "voyager-overlay-print.pdf", "voyager-overlay-all.pdf",
          "dm1xl-overlay-cut.pdf", "dm1xl-overlay-print.pdf", "dm1xl-overlay-all.pdf" ] := by
  have hh : ¬ (store given).count "help" ≠ 0 := fun h => hhelp ((count_store _ _).mp h)
  have hmain : main given =
      MainResult.create_pdf
        ((main_model (store given) (main_mode (store given)
            ⟨"", "", false, false, false, none⟩)).model ++ "-overlay-" ++
          (main_model (store given) (main_mode (store given)
            ⟨"", "", false, false, false, none⟩)).type ++ ".pdf")
        (main_model (store given) (main_mode (store given)
            ⟨"", "", false, false, false, none⟩)) := by
    simp only [main, parse_command_line_eq given hdecl hnodup, hh, if_false, h1, h2]
  rw [conflicting_options_eq] at h1
  simp only [List.filter_cons, List.filter_nil, isSet_store] at h1
  refine ⟨(main_model (store given) (main_mode (store given)
      ⟨"", "", false, false, false, none⟩)).type,
    main_model (store given) (main_mode (store given) ⟨"", "", false, false, false, none⟩),
    ?_, ?_, rfl, ?_, hmain, ?_⟩ <;>
  simp only [main_model, main_mode, count_store, List.filter_cons, List.filter_nil,
    isSet_store] <;>
  by_cases hc : "cut" ∈ given <;> by_cases hp : "print" ∈ given <;>
    by_cases ha : "all" ∈ given <;> by_cases hs : "sm" ∈ given <;>
    simp [hc, hp, ha, hs, conflictMessage] at h1 ⊢

/-- C10 at a concrete input: the command line `--sm --print`. -/
theorem main_filename_witness :
    (∀ name ∈ ["sm", "print"], name ∈ declared_options) ∧
    ["sm", "print"].Nodup ∧
    "help" ∉ ["sm", "print"] ∧
    conflicting_options (store ["sm", "print"]) ["cut", "print", "all"] true = Except.ok () ∧
    conflicting_options (store ["sm", "print"]) ["hp", "sm"] false = Except.ok () ∧
    ∃ mode vars,
      ["cut", "print", "all"].filter (isSet (store ["sm", "print"])) = [mode] ∧
      mode ≠ "" ∧
      vars.type = mode ∧
      vars.model = (if "sm" ∈ ["sm", "print"] then "dm1xl" else "voyager") ∧
      main ["sm", "print"]
        = MainResult.create_pdf (vars.model ++ "-overlay-" ++ mode ++ ".pdf") vars ∧
      vars.model ++ "-overlay-" ++ mode ++ ".pdf" ∈
        [ "voyager-overlay-cut.pdf", "voyager-overlay-print.pdf", "voyager-overlay-all.pdf",
          "dm1xl-overlay-cut.pdf", "dm1xl-overlay-print.pdf", "dm1xl-overlay-all.pdf" ] :=
  ⟨by decide, by decide, by decide, rfl, rfl,
    main_filename ["sm", "print"] (by decide) (by decide) (by decide) rfl rfl⟩

/-! ### `createPageContents`: placements -/

/-- The layout of a call, from the statics it leaves: the count, the gap, and the single
placement that the loop writes. -/
theorem createPageContents_layoutOf {K : Type} [LinearOrderedField K] [FloorRing K]
    (statics : Option (TilerStatics K)) (page_width_in page_height_in : K)
    (geom : OverlayGeometry K) (show_outlines show_reg_marks : Bool) (s : TilerStatics K)
    (hs : createPageContents_statics statics page_height_in geom = some s) :
    (createPageContents statics page_width_in page_height_in geom show_outlines
        show_reg_marks).map layoutOf
      = some ⟨s.y_count, s.overlay_y_gap_in,
          [ ((page_width_in - geom.width_in) / 2.0,
             Dbl.rsub (page_height_in - PAGE_INSET_TOP_IN - ((1 + 1 : Nat) * geom.height_in))
               (Dbl.lmul ((1 : Nat) : K) s.overlay_y_gap_in)) ]⟩ := by
  rw [createPageContents_layout statics page_width_in page_height_in geom show_outlines
    show_reg_marks s hs]
  simp only [Option.map_some', layoutOf, placements_contents]

/-- C11 (code defect). For the `hp` profile on an 8.5 x 11 in page `createPageContents` ends
with the copy count 4 and the gap 0.317, and its contents hold one placement only, that of
the copy index 1 (left 1.925, bottom 5.858, so its top edge is `1 * (2.10 + 0.317)` below
the top inset line 10.375): the copies of index 0, 2 and 3 are not placed. -/
theorem createPageContents_places_one_copy :
    (createPageContents none (8.5 : ℚ) 11 hp_geometry false false).map layoutOf
      = some ⟨4, Dbl.fin 0.317, [(1.925, Dbl.fin 5.858)]⟩ ∧
    ([(1.925, Dbl.fin 5.858)] : List (ℚ × Dbl ℚ)).length ≠ 4 ∧
    (5.858 : ℚ) + 2.10 = (11 - PAGE_INSET_TOP_IN) - 1 * (2.10 + 0.317) := by
  refine ⟨?_, by decide, by norm_num [PAGE_INSET_TOP_IN]⟩
  rw [createPageContents_layoutOf none _ _ _ _ _ _ statics_hp_letter]
  norm_num [hp_geometry, Dbl.lmul, Dbl.rsub, PAGE_INSET_TOP_IN]

/-! ### `createPageContents`: no copy fits, and the span of the stack -/

/-- The `int` predecessor, when it does not overflow. -/
theorem intPred_eq (n : ℤ) (h : INT_MIN ≤ n - 1) : intPred n = some (n - 1) := by
  simp [intPred, h]

/-- A division by a non-zero divisor is finite. -/
theorem Dbl.div_of_ne {K : Type} [LinearOrderedField K] (a b : K) (hb : b ≠ 0) :
    Dbl.div a b = Dbl.fin (a / b) := by
  simp [Dbl.div, hb]

/-- When less than one overlay height is available, the initial count is at most 0. -/
theorem init_y_count_of_lt {K : Type} [LinearOrderedField K] [FloorRing K]
    (avail : K) (geom : OverlayGeometry K) (hh : 0 < geom.height_in)
    (hlt : avail < geom.height_in)
    (hrange : ((INT_MIN + 2 : ℤ) : K) * geom.height_in ≤ avail) :
    ∃ z : ℤ, init_y_count avail geom = some z ∧ INT_MIN + 2 ≤ z ∧ z ≤ 0 := by
  have hx1 : avail / geom.height_in < 1 := (div_lt_one hh).mpr hlt
  have hx2 : ((INT_MIN + 2 : ℤ) : K) ≤ avail / geom.height_in := (le_div_iff₀ hh).mpr hrange
  unfold init_y_count
  rw [Dbl.div_of_ne _ _ hh.ne']
  by_cases h0 : 0 ≤ avail / geom.height_in
  · have hz : ⌊avail / geom.height_in⌋ = 0 := Int.floor_eq_zero_iff.mpr ⟨h0, hx1⟩
    refine ⟨0, ?_, by decide, le_refl _⟩
    simp [doubleToInt, h0, hz, INT_MIN, INT_MAX]
  · have hneg : avail / geom.height_in ≤ 0 := le_of_lt (not_le.mp h0)
    have hz0 : ⌈avail / geom.height_in⌉ ≤ 0 := Int.ceil_le.mpr (by simpa using hneg)
    have hz1 : INT_MIN + 2 ≤ ⌈avail / geom.height_in⌉ := by
      have := le_trans hx2 (Int.le_ceil (avail / geom.height_in))
      exact_mod_cast this
    refine ⟨⌈avail / geom.height_in⌉, ?_, hz1, hz0⟩
    have hmin : INT_MIN ≤ ⌈avail / geom.height_in⌉ := by linarith
    have hmax : ⌈avail / geom.height_in⌉ ≤ INT_MAX := le_trans hz0 (by decide)
    simp [doubleToInt, h0, hmin, hmax]

/-- When less than one overlay height is available, the first call still leaves statics:
a count of at most 0 and a finite gap. -/
theorem statics_of_lt {K : Type} [LinearOrderedField K] [FloorRing K]
    (page_height_in : K) (geom : OverlayGeometry K) (hh : 0 < geom.height_in)
    (hlt : init_available_height_in page_height_in < geom.height_in)
    (hrange : ((INT_MIN + 2 : ℤ) : K) * geom.height_in
      ≤ init_available_height_in page_height_in) :
    ∃ s g, createPageContents_statics none page_height_in geom = some s ∧
      s.y_count ≤ 0 ∧ s.overlay_y_gap_in = Dbl.fin g := by
  obtain ⟨z, hz, hzlo, hzhi⟩ := init_y_count_of_lt _ geom hh hlt hrange
  have hp1 : intPred z = some (z - 1) := intPred_eq z (by linarith)
  have hd1 : ((z - 1 : ℤ) : K) ≠ 0 := by
    have : z - 1 ≠ 0 := by omega
    exact_mod_cast this
  have hcases : gap_check (init_available_height_in page_height_in) geom z = some z ∨
      gap_check (init_available_height_in page_height_in) geom z = some (z - 1) := by
    unfold gap_check gap_check_value
    simp only [hp1, Option.bind_eq_bind, Option.some_bind, Option.pure_def]
    split
    · right; rfl
    · left; rfl
  have hgap : ∀ y : ℤ, INT_MIN + 1 ≤ y → y ≤ 0 →
      ∃ g, init_overlay_y_gap_in (init_available_height_in page_height_in) geom y
        = some (Dbl.fin g) := by
    intro y hylo hyhi
    have hp : intPred y = some (y - 1) := intPred_eq y (by linarith)
    have hd : ((y - 1 : ℤ) : K) ≠ 0 := by
      have : y - 1 ≠ 0 := by omega
      exact_mod_cast this
    unfold init_overlay_y_gap_in
    simp only [hp, Option.bind_eq_bind, Option.some_bind, Option.pure_def]
    rw [Dbl.div_of_ne _ _ hd]
    exact ⟨_, rfl⟩
  rcases hcases with hc | hc
  · obtain ⟨g, hg⟩ := hgap z (by linarith) hzhi
    refine ⟨⟨init_available_height_in page_height_in, z, Dbl.fin g⟩, g, ?_, hzhi, rfl⟩
    simp only [createPageContents_statics, hz, hc, hg, Option.bind_eq_bind, Option.some_bind,
      Option.pure_def]
  · obtain ⟨g, hg⟩ := hgap (z - 1) (by linarith) (by linarith)
    refine ⟨⟨init_available_height_in page_height_in, z - 1, Dbl.fin g⟩, g, ?_,
      by simp only; linarith, rfl⟩
    simp only [createPageContents_statics, hz, hc, hg, Option.bind_eq_bind, Option.some_bind,
      Option.pure_def]

/-- The placement written by the loop body for the copy index `y`. -/
theorem placements_place_copy {K : Type} [LinearOrderedField K]
    (page_width_in page_height_in : K) (geom : OverlayGeometry K) (gap : Dbl K) (y : Nat) :
    placements (place_copy page_width_in page_height_in geom gap y)
      = [ ((page_width_in - geom.width_in) / 2.0,
           Dbl.rsub (page_height_in - PAGE_INSET_TOP_IN - ((y + 1 : Nat) * geom.height_in))
             (Dbl.lmul (y : K) gap)) ] := by
  simp [place_copy, placements_append, placements_map_draw, placements]

/-- The gap left by a first call that ends with a count above 1. -/
theorem first_call_gap {K : Type} [LinearOrderedField K] [FloorRing K]
    (page_height_in : K) (geom : OverlayGeometry K) (s : TilerStatics K)
    (hs : createPageContents_statics none page_height_in geom = some s)
    (hn : 1 < s.y_count) :
    s.overlay_y_gap_in = Dbl.fin
      ((init_available_height_in page_height_in - s.y_count * geom.height_in)
        / ((s.y_count - 1 : ℤ) : K)) := by
  simp only [createPageContents_statics, Option.bind_eq_bind, Option.pure_def] at hs
  cases h0 : init_y_count (init_available_height_in page_height_in) geom with
  | none => simp [h0] at hs
  | some z =>
    rw [h0] at hs
    simp only [Option.some_bind] at hs
    cases h1 : gap_check (init_available_height_in page_height_in) geom z with
    | none => simp [h1] at hs
    | some y =>
      rw [h1] at hs
      simp only [Option.some_bind] at hs
      cases h2 : init_overlay_y_gap_in (init_available_height_in page_height_in) geom y with
      | none => simp [h2] at hs
      | some g =>
        rw [h2] at hs
        simp only [Option.some_bind, Option.some.injEq] at hs
        subst hs
        simp only at hn ⊢
        have hp : intPred y = some (y - 1) := intPred_eq y (by
          have : INT_MIN ≤ 0 := by decide
          linarith)
        have hd : ((y - 1 : ℤ) : K) ≠ 0 := by
          have : y - 1 ≠ 0 := by omega
          exact_mod_cast this
        unfold init_overlay_y_gap_in at h2
        simp only [hp, Option.bind_eq_bind, Option.some_bind, Option.pure_def,
          Option.some.injEq] at h2
        rw [Dbl.div_of_ne _ _ hd] at h2
        exact h2.symm

/-- The statics left by the first call for an overlay 10 in high on an 11 in page. -/
theorem statics_first_10 :
    createPageContents_statics none (11 : ℚ) (hp_with_height 10)
      = some ⟨9.351, 0, Dbl.fin (-9.351)⟩ := by
  have h : init_y_count (init_available_height_in (11 : ℚ)) (hp_with_height 10) = some 0 := by
    rw [available_height_letter]
    apply init_y_count_eq <;> norm_num [hp_with_height, INT_MIN, INT_MAX]
  simp only [createPageContents_statics, h]
  rw [available_height_letter]
  norm_num [gap_check, gap_check_value, intPred, INT_MIN, Dbl.div, Dbl.rsub, Dbl.lt,
    init_overlay_y_gap_in, hp_with_height, OVERLAY_MINIMUM_Y_GAP_IN]

/-- C15 (as stated, fails). On an 8.5 x 11 in page with an overlay 10 in high the available
height 9.351 is below the overlay height, and `createPageContents` returns page contents
all the same: it ends with the count 0 and the gap -9.351, and the contents hold a
placement. -/
theorem createPageContents_returns_contents_when_none_fits :
    init_available_height_in (11 : ℚ) < (hp_with_height (10 : ℚ)).height_in ∧
    (createPageContents none (8.5 : ℚ) 11 (hp_with_height 10) false false).map layoutOf
      = some ⟨0, Dbl.fin (-9.351), [(1.925, Dbl.fin (-0.274))]⟩ := by
  constructor
  · rw [available_height_letter]
    norm_num [hp_with_height]
  · rw [createPageContents_layoutOf none _ _ _ _ _ _ statics_first_10]
    norm_num [hp_with_height, hp_geometry, Dbl.lmul, Dbl.rsub, PAGE_INSET_TOP_IN]

/-- C15 (amended). For every input with `height_in > 0` and an available height below
`height_in` (zero copies fit), the quotient of the two being at least `INT_MIN + 2`, the
first call of `createPageContents` has no error to report: it returns page contents, and
ends with a copy count of at most 0 and a finite gap. -/
theorem createPageContents_no_error_when_none_fits {K : Type} [LinearOrderedField K]
    [FloorRing K] (page_width_in page_height_in : K) (geom : OverlayGeometry K)
    (show_outlines show_reg_marks : Bool) (hh : 0 < geom.height_in)
    (hlt : init_available_height_in page_height_in < geom.height_in)
    (hrange : ((INT_MIN + 2 : ℤ) : K) * geom.height_in
      ≤ init_available_height_in page_height_in) :
    ∃ s contents g,
      createPageContents none page_width_in page_height_in geom show_outlines show_reg_marks
        = some (s, contents) ∧
      s.y_count ≤ 0 ∧ s.overlay_y_gap_in = Dbl.fin g := by
  obtain ⟨s, g, hs, hcount, hgap⟩ := statics_of_lt page_height_in geom hh hlt hrange
  exact ⟨s, _, g, createPageContents_layout none page_width_in page_height_in geom
    show_outlines show_reg_marks s hs, hcount, hgap⟩

/-- C15 (amended) at a concrete input: an overlay 10 in high on an 8.5 x 11 in page. -/
theorem createPageContents_no_error_when_none_fits_witness :
    (0 : ℚ) < (hp_with_height (10 : ℚ)).height_in ∧
    init_available_height_in (11 : ℚ) < (hp_with_height (10 : ℚ)).height_in ∧
    ((INT_MIN + 2 : ℤ) : ℚ) * (hp_with_height (10 : ℚ)).height_in
      ≤ init_available_height_in (11 : ℚ) ∧
    ∃ s contents g,
      createPageContents none (8.5 : ℚ) 11 (hp_with_height 10) false false
        = some (s, contents) ∧
      s.y_count ≤ 0 ∧ s.overlay_y_gap_in = Dbl.fin g :=
  have h1 : (0 : ℚ) < (hp_with_height (10 : ℚ)).height_in := by norm_num [hp_with_height]
  have h2 : init_available_height_in (11 : ℚ) < (hp_with_height (10 : ℚ)).height_in := by
    rw [available_height_letter]; norm_num [hp_with_height]
  have h3 : ((INT_MIN + 2 : ℤ) : ℚ) * (hp_with_height (10 : ℚ)).height_in
      ≤ init_available_height_in (11 : ℚ) := by
    rw [available_height_letter]; norm_num [hp_with_height, INT_MIN]
  ⟨h1, h2, h3,
    createPageContents_no_error_when_none_fits 8.5 11 (hp_with_height 10) false false h1 h2 h3⟩

/-- The loop body's formula
`bottom(y) = page_height - PAGE_INSET_TOP_IN - (y + 1) * height_in - y * gap`, taken at the
indices 0 and `n - 1` with the gap `(available_height - n * height_in) / (n - 1)` that a
first call ending with a count `n > 1` leaves: the top edge of the copy 0 would be on the
top inset line and the bottom edge of the copy `n - 1` exactly `PAGE_INSET_BOTTOM_IN` above
the page bottom. This is what a loop over `0 <= y < y_count` would place; the loop of the
source runs the body for `y = 1` only. -/
theorem place_copy_first_and_last {K : Type} [LinearOrderedField K] [FloorRing K]
    (page_width_in page_height_in : K) (geom : OverlayGeometry K) (s : TilerStatics K)
    (hs : createPageContents_statics none page_height_in geom = some s)
    (hn : 1 < s.y_count) :
    s.overlay_y_gap_in = Dbl.fin
      ((init_available_height_in page_height_in - s.y_count * geom.height_in)
        / ((s.y_count - 1 : ℤ) : K)) ∧
    ∃ b0 bl : K,
      placements (place_copy page_width_in page_height_in geom s.overlay_y_gap_in 0)
        = [((page_width_in - geom.width_in) / 2.0, Dbl.fin b0)] ∧
      b0 + geom.height_in = page_height_in - PAGE_INSET_TOP_IN ∧
      placements (place_copy page_width_in page_height_in geom s.overlay_y_gap_in
          (s.y_count - 1).toNat)
        = [((page_width_in - geom.width_in) / 2.0, Dbl.fin bl)] ∧
      bl = PAGE_INSET_BOTTOM_IN := by
  have hg := first_call_gap page_height_in geom s hs hn
  have hd : ((s.y_count - 1 : ℤ) : K) ≠ 0 := by
    have : s.y_count - 1 ≠ 0 := by omega
    exact_mod_cast this
  have hm : (((s.y_count - 1).toNat : ℕ) : K) = ((s.y_count - 1 : ℤ) : K) := by
    have : (((s.y_count - 1).toNat : ℕ) : ℤ) = s.y_count - 1 :=
      Int.toNat_of_nonneg (by omega)
    exact_mod_cast this
  refine ⟨hg, page_height_in - PAGE_INSET_TOP_IN - ((0 + 1 : Nat) * geom.height_in)
      - ((0 : Nat) : K) * ((init_available_height_in page_height_in
          - s.y_count * geom.height_in) / ((s.y_count - 1 : ℤ) : K)),
    page_height_in - PAGE_INSET_TOP_IN
      - (((s.y_count - 1).toNat + 1 : Nat) * geom.height_in)
      - (((s.y_count - 1).toNat : Nat) : K) * ((init_available_height_in page_height_in
          - s.y_count * geom.height_in) / ((s.y_count - 1 : ℤ) : K)), ?_, ?_, ?_, ?_⟩
  · rw [placements_place_copy, hg]
    simp only [Dbl.lmul, Dbl.rsub]
  · push_cast
    ring
  · rw [placements_place_copy, hg]
    simp only [Dbl.lmul, Dbl.rsub]
  · have hd2 : (s.y_count : K) - 1 ≠ 0 := by
      have := hd
      push_cast at this
      exact this
    have hm2 : (((s.y_count - 1).toNat : ℕ) : K) = (s.y_count : K) - 1 := by
      rw [hm]
      push_cast
      rfl
    have key : ((s.y_count : K) - 1) * ((init_available_height_in page_height_in
        - s.y_count * geom.height_in) / ((s.y_count : K) - 1))
        = init_available_height_in page_height_in - s.y_count * geom.height_in := by
      field_simp
    push_cast
    rw [hm2, key]
    unfold init_available_height_in
    ring

/-- The statics left by the first call for an overlay 0.03 in high on a 1.779 in page. -/
theorem statics_first_003 :
    createPageContents_statics none (1.779 : ℚ) (hp_with_height 0.03)
      = some ⟨0.13, 3, Dbl.fin 0.02⟩ := by
  have ha : init_available_height_in (1.779 : ℚ) = 0.13 := by
    norm_num [init_available_height_in, PAGE_INSET_TOP_IN, PAGE_INSET_BOTTOM_IN]
  have h : init_y_count (init_available_height_in (1.779 : ℚ)) (hp_with_height 0.03)
      = some 4 := by
    rw [ha]
    apply init_y_count_eq <;> norm_num [hp_with_height, INT_MIN, INT_MAX]
  simp only [createPageContents_statics, h]
  rw [ha]
  norm_num [gap_check, gap_check_value, intPred, INT_MIN, Dbl.div, Dbl.rsub, Dbl.lt,
    init_overlay_y_gap_in, hp_with_height, OVERLAY_MINIMUM_Y_GAP_IN]

/-- The statics left by the second call for an overlay 0.03 in high on a 1.779 in page. -/
theorem statics_second_003 :
    createPageContents_statics (some ⟨0.13, 3, Dbl.fin 0.02⟩) (1.779 : ℚ) (hp_with_height 0.03)
      = some ⟨0.13, 2, Dbl.fin 0.02⟩ := by
  simp only [createPageContents_statics]
  norm_num [gap_check, gap_check_value, intPred, INT_MIN, Dbl.div, Dbl.rsub, Dbl.lt,
    hp_with_height, OVERLAY_MINIMUM_Y_GAP_IN]

/-- C19 (code defect). For the `hp` profile on an 8.5 x 11 in page the first call of
`createPageContents` ends with the copy count 4 (`> 1`), and the placements it writes are
the single copy of index 1, with bottom edge 5.858 and top edge 7.958: no copy written
has its top edge on the top inset line `11 - PAGE_INSET_TOP_IN = 10.375`, and none has its
bottom edge `PAGE_INSET_BOTTOM_IN = 1.024` above the page bottom, so the copies written do
not span the available height. And where the copy written is the last one, it can miss the
bottom inset too: on a page 1.779 in high with an overlay 0.03 in high the second of two
calls ends with the count 2 and the gap 0.02 left by the first, and writes the copy of
index 1 with bottom edge 1.074. -/
theorem createPageContents_stack_does_not_span :
    (createPageContents none (8.5 : ℚ) 11 hp_geometry false false).map layoutOf
      = some ⟨4, Dbl.fin 0.317, [(1.925, Dbl.fin 5.858)]⟩ ∧
    (∀ p ∈ ([(1.925, Dbl.fin 5.858)] : List (ℚ × Dbl ℚ)),
      p.2 ≠ Dbl.fin (11 - PAGE_INSET_TOP_IN - (hp_geometry : OverlayGeometry ℚ).height_in) ∧
      p.2 ≠ Dbl.fin PAGE_INSET_BOTTOM_IN) ∧
    (11 - PAGE_INSET_TOP_IN - (hp_geometry : OverlayGeometry ℚ).height_in = 8.275 ∧
      (5.858 : ℚ) + (hp_geometry : OverlayGeometry ℚ).height_in = 7.958 ∧
      (11 : ℚ) - PAGE_INSET_TOP_IN = 10.375 ∧ (PAGE_INSET_BOTTOM_IN : ℚ) = 1.024) ∧
    createPageContents_twice (8.5 : ℚ) 1.779 (hp_with_height 0.03) false false
      = some (⟨3, Dbl.fin 0.02, [(1.925, Dbl.fin 1.074)]⟩,
              ⟨2, Dbl.fin 0.02, [(1.925, Dbl.fin 1.074)]⟩) ∧
    Dbl.fin (1.074 : ℚ) ≠ Dbl.fin PAGE_INSET_BOTTOM_IN := by
  refine ⟨?_, ?_, ?_, ?_, ?_⟩
  · rw [createPageContents_layoutOf none _ _ _ _ _ _ statics_hp_letter]
    norm_num [hp_geometry, Dbl.lmul, Dbl.rsub, PAGE_INSET_TOP_IN]
  · intro p hp
    simp only [List.mem_singleton] at hp
    subst hp
    norm_num [hp_geometry, PAGE_INSET_TOP_IN, PAGE_INSET_BOTTOM_IN]
  · norm_num [hp_geometry, PAGE_INSET_TOP_IN, PAGE_INSET_BOTTOM_IN]
  · unfold createPageContents_twice
    rw [createPageContents_layout none _ _ _ _ _ _ statics_first_003]
    simp only [Option.bind_eq_bind, Option.some_bind]
    rw [createPageContents_layout _ _ _ _ _ _ _ statics_second_003]
    simp only [Option.bind_eq_bind, Option.some_bind, layoutOf, placements_contents]
    norm_num [hp_with_height, hp_geometry, Dbl.lmul, Dbl.rsub, PAGE_INSET_TOP_IN]
  · norm_num [PAGE_INSET_BOTTOM_IN]

/-! ### `RoundedRectangle`: shape of the path -/

/-- The four straight segments of the path of `RoundedRectangle`, wherever the pen starts. -/
theorem lineSegsFrom_RoundedRectangle {K : Type} [CommRing K] [OfScientific K]
    (cur : K × K) (dX dY dWidth dHeight dRoundX dRoundY : K) :
    lineSegsFrom cur (RoundedRectangle dX dY dWidth dHeight dRoundX dRoundY) =
      [ ⟨(dX + dRoundX, dY), (dX + dWidth - dRoundX, dY)⟩,
        ⟨(dX + dWidth, dY + dRoundY), (dX + dWidth, dY + dHeight - dRoundY)⟩,
        ⟨(dX + dWidth - dRoundX, dY + dHeight), (dX + dRoundX, dY + dHeight)⟩,
        ⟨(dX, dY + dHeight - dRoundY), (dX, dY + dRoundY)⟩ ] := by
  simp [lineSegsFrom, RoundedRectangle, penAfter]

/-- C16. For every input, the path of `RoundedRectangle` has four straight edges
`e1 .. e4` and four corner arcs `a1 .. a4`, the arc `ai` running from the end of `ei` to
the start of the next edge, with `e1`, `e3` horizontal and `e2`, `e4` vertical. The first
control point of each arc lies on the line of the edge before it, so shares with the
arc's start point the coordinate across that edge; the second lies on the line of the
edge after it, so shares that coordinate with the arc's end point. Each control point is
offset from the sharp corner of `arcCorners` by `arc_magic * dRoundX` along a horizontal
edge, by `arc_magic * dRoundY` along a vertical one. -/
theorem RoundedRectangle_control_points {K : Type} [CommRing K] [OfScientific K]
    (cur : K × K) (dX dY dWidth dHeight dRoundX dRoundY : K) :
    ∃ e1 e2 e3 e4 a1 a2 a3 a4,
      lineSegsFrom cur (RoundedRectangle dX dY dWidth dHeight dRoundX dRoundY)
        = [e1, e2, e3, e4] ∧
      cubicSegsFrom cur (RoundedRectangle dX dY dWidth dHeight dRoundX dRoundY)
        = [a1, a2, a3, a4] ∧
      arcCorners dX dY dWidth dHeight
        = [ (dX + dWidth, dY), (dX + dWidth, dY + dHeight), (dX, dY + dHeight), (dX, dY) ] ∧
      -- the edges are axis-parallel and the arcs join them in order
      (e1.p0.2 = e1.p1.2 ∧ e2.p0.1 = e2.p1.1 ∧ e3.p0.2 = e3.p1.2 ∧ e4.p0.1 = e4.p1.1) ∧
      (a1.p0 = e1.p1 ∧ a1.p3 = e2.p0 ∧ a2.p0 = e2.p1 ∧ a2.p3 = e3.p0 ∧
        a3.p0 = e3.p1 ∧ a3.p3 = e4.p0 ∧ a4.p0 = e4.p1 ∧ a4.p3 = e1.p0) ∧
      -- bottom right
      (a1.c1 = (dX + dWidth - dRoundX * arc_magic, dY) ∧ a1.c1.2 = a1.p0.2 ∧
        a1.c2 = (dX + dWidth, dY + dRoundY * arc_magic) ∧ a1.c2.1 = a1.p3.1 ∧
        distSq a1.c1 (dX + dWidth, dY) = (arc_magic * dRoundX) ^ 2 ∧
        distSq a1.c2 (dX + dWidth, dY) = (arc_magic * dRoundY) ^ 2) ∧
      -- top right
      (a2.c1 = (dX + dWidth, dY + dHeight - dRoundY * arc_magic) ∧ a2.c1.1 = a2.p0.1 ∧
        a2.c2 = (dX + dWidth - dRoundX * arc_magic, dY + dHeight) ∧ a2.c2.2 = a2.p3.2 ∧
        distSq a2.c1 (dX + dWidth, dY + dHeight) = (arc_magic * dRoundY) ^ 2 ∧
        distSq a2.c2 (dX + dWidth, dY + dHeight) = (arc_magic * dRoundX) ^ 2) ∧
      -- top left
      (a3.c1 = (dX + dRoundX * arc_magic, dY + dHeight) ∧ a3.c1.2 = a3.p0.2 ∧
        a3.c2 = (dX, dY + dHeight - dRoundY * arc_magic) ∧ a3.c2.1 = a3.p3.1 ∧
        distSq a3.c1 (dX, dY + dHeight) = (arc_magic * dRoundX) ^ 2 ∧
        distSq a3.c2 (dX, dY + dHeight) = (arc_magic * dRoundY) ^ 2) ∧
      -- bottom left
      (a4.c1 = (dX, dY + dRoundY * arc_magic) ∧ a4.c1.1 = a4.p0.1 ∧
        a4.c2 = (dX + dRoundX * arc_magic, dY) ∧ a4.c2.2 = a4.p3.2 ∧
        distSq a4.c1 (dX, dY) = (arc_magic * dRoundY) ^ 2 ∧
        distSq a4.c2 (dX, dY) = (arc_magic * dRoundX) ^ 2) := by
  refine ⟨_, _, _, _, _, _, _, _, lineSegsFrom_RoundedRectangle cur _ _ _ _ _ _,
    cubicSegsFrom_RoundedRectangle cur _ _ _ _ _ _, rfl, ?_, ?_, ?_, ?_, ?_, ?_⟩
  · exact ⟨rfl, rfl, rfl, rfl⟩
  · exact ⟨rfl, rfl, rfl, rfl, rfl, rfl, rfl, rfl⟩
  · refine ⟨rfl, rfl, rfl, rfl, ?_, ?_⟩ <;> simp only [distSq] <;> ring
  · refine ⟨rfl, rfl, rfl, rfl, ?_, ?_⟩ <;> simp only [distSq] <;> ring
  · refine ⟨rfl, rfl, rfl, rfl, ?_, ?_⟩ <;> simp only [distSq] <;> ring
  · refine ⟨rfl, rfl, rfl, rfl, ?_, ?_⟩ <;> simp only [distSq] <;> ring

/-- C17. For every input, the path of `RoundedRectangle` is one move followed by four
line segments alternating with four cubic segments (line, curve, line, curve, line,
curve, line, curve), and it is closed: the move goes to `(dX + dRoundX, dY)`, and the last
cubic segment, hence the pen after the whole path, ends there. -/
theorem RoundedRectangle_closed_path {K : Type} [CommRing K] [OfScientific K]
    (cur : K × K) (dX dY dWidth dHeight dRoundX dRoundY : K) :
    (RoundedRectangle dX dY dWidth dHeight dRoundX dRoundY).map opKind
      = [ OpKind.move, OpKind.line, OpKind.curve, OpKind.line, OpKind.curve,
          OpKind.line, OpKind.curve, OpKind.line, OpKind.curve ] ∧
    (lineSegsFrom cur (RoundedRectangle dX dY dWidth dHeight dRoundX dRoundY)).length = 4 ∧
    (cubicSegsFrom cur (RoundedRectangle dX dY dWidth dHeight dRoundX dRoundY)).length = 4 ∧
    (RoundedRectangle dX dY dWidth dHeight dRoundX dRoundY).head?
      = some (MoveTo (dX + dRoundX) dY) ∧
    ((cubicSegsFrom cur (RoundedRectangle dX dY dWidth dHeight dRoundX dRoundY)).getLast?).map
        CubicSeg.p3 = some (dX + dRoundX, dY) ∧
    (RoundedRectangle dX dY dWidth dHeight dRoundX dRoundY).foldl penAfter cur
      = (dX + dRoundX, dY) := by
  refine ⟨?_, ?_, ?_, ?_, ?_, ?_⟩
  · simp [RoundedRectangle, opKind]
  · rw [lineSegsFrom_RoundedRectangle]; rfl
  · rw [cubicSegsFrom_RoundedRectangle]; rfl
  · simp [RoundedRectangle]
  · rw [cubicSegsFrom_RoundedRectangle]; simp
  · simp [RoundedRectangle, penAfter]

/-- The bounds on `arc_magic` that keep a control point between the sharp corner and the
end of the arc. -/
theorem arc_magic_bounds {K : Type} [LinearOrderedField K] :
    (0 : K) ≤ arc_magic ∧ (arc_magic : K) ≤ 1 := by
  constructor <;> norm_num [arc_magic]

/-- Every point of the path of `RoundedRectangle` is in the bounding box, when the radii
are between 0 and half the sides. -/
theorem pathPoints_RoundedRectangle_in_box {K : Type} [LinearOrderedField K]
    (dX dY dWidth dHeight dRoundX dRoundY : K)
    (hx0 : 0 ≤ dRoundX) (hx1 : dRoundX ≤ dWidth / 2)
    (hy0 : 0 ≤ dRoundY) (hy1 : dRoundY ≤ dHeight / 2) :
    ∀ p ∈ pathPoints (RoundedRectangle dX dY dWidth dHeight dRoundX dRoundY),
      dX ≤ p.1 ∧ p.1 ≤ dX + dWidth ∧ dY ≤ p.2 ∧ p.2 ≤ dY + dHeight := by
  obtain ⟨hk0, hk1⟩ := arc_magic_bounds (K := K)
  have hxk0 : 0 ≤ dRoundX * arc_magic := mul_nonneg hx0 hk0
  have hxk1 : dRoundX * arc_magic ≤ dRoundX := mul_le_of_le_one_right hx0 hk1
  have hyk0 : 0 ≤ dRoundY * arc_magic := mul_nonneg hy0 hk0
  have hyk1 : dRoundY * arc_magic ≤ dRoundY := mul_le_of_le_one_right hy0 hk1
  have hw : dRoundX ≤ dWidth := by linarith
  have hh : dRoundY ≤ dHeight := by linarith
  intro p hp
  simp only [pathPoints, RoundedRectangle, List.flatMap_cons, List.flatMap_nil, opPoints,
    List.cons_append, List.nil_append, List.append_nil, List.mem_cons, List.mem_singleton,
    List.not_mem_nil, or_false] at hp
  rcases hp with h | h | h | h | h | h | h | h | h | h | h | h | h | h | h | h | h <;>
    subst h <;> refine ⟨?_, ?_, ?_, ?_⟩ <;> simp only <;> linarith

/-- C20. For every rectangle and radii with `0 <= dRoundX <= dWidth/2` and
`0 <= dRoundY <= dHeight/2`, every anchor point and control point of the path of
`RoundedRectangle` lies in `[dX, dX + dWidth] x [dY, dY + dHeight]`; and for every
`button(center_x, center_y, width, height, radius)` with `0 <= radius`,
`radius <= width/2` and `radius <= height/2`, every point of its path lies in the box of
that width and height centred on `(center_x, center_y)`. -/
theorem RoundedRectangle_stays_in_box {K : Type} [LinearOrderedField K]
    (dX dY dWidth dHeight dRoundX dRoundY center_x center_y width height radius : K)
    (hx0 : 0 ≤ dRoundX) (hx1 : dRoundX ≤ dWidth / 2)
    (hy0 : 0 ≤ dRoundY) (hy1 : dRoundY ≤ dHeight / 2)
    (hr0 : 0 ≤ radius) (hrw : radius ≤ width / 2) (hrh : radius ≤ height / 2) :
    (∀ p ∈ pathPoints (RoundedRectangle dX dY dWidth dHeight dRoundX dRoundY),
      dX ≤ p.1 ∧ p.1 ≤ dX + dWidth ∧ dY ≤ p.2 ∧ p.2 ≤ dY + dHeight) ∧
    (∀ p ∈ pathPoints (button center_x center_y width height radius),
      center_x - width / 2 ≤ p.1 ∧ p.1 ≤ center_x + width / 2 ∧
      center_y - height / 2 ≤ p.2 ∧ p.2 ≤ center_y + height / 2) := by
  refine ⟨pathPoints_RoundedRectangle_in_box _ _ _ _ _ _ hx0 hx1 hy0 hy1, ?_⟩
  intro p hp
  have h2 : (2.0 : K) = 2 := by norm_num
  have hp2 : p ∈ pathPoints (RoundedRectangle (center_x - width / 2) (center_y - height / 2)
      width height radius radius) := by
    simpa [button, pathPoints, opPoints, h2] using hp
  have := pathPoints_RoundedRectangle_in_box _ _ _ _ _ _ hr0 hrw hr0 hrh p hp2
  refine ⟨this.1, ?_, this.2.2.1, ?_⟩ <;> linarith [this.2.1, this.2.2.2]

/-- C20 at a concrete input: the call `button(painter, 4.25, 5.5, 1.0, 1.0, 0.025)` made
by `create_pdf`, and the call of `RoundedRectangle` it makes. -/
theorem RoundedRectangle_stays_in_box_witness :
    (0 : ℚ) ≤ 0.025 ∧ (0.025 : ℚ) ≤ 1 / 2 ∧
    (∀ p ∈ pathPoints (RoundedRectangle (3.75 : ℚ) 5 1 1 0.025 0.025),
      3.75 ≤ p.1 ∧ p.1 ≤ 3.75 + 1 ∧ 5 ≤ p.2 ∧ p.2 ≤ 5 + 1) ∧
    (∀ p ∈ pathPoints (button (4.25 : ℚ) 5.5 1 1 0.025),
      4.25 - 1 / 2 ≤ p.1 ∧ p.1 ≤ 4.25 + 1 / 2 ∧ 5.5 - 1 / 2 ≤ p.2 ∧ p.2 ≤ 5.5 + 1 / 2) :=
  have h0 : (0 : ℚ) ≤ 0.025 := by norm_num
  have h1 : (0.025 : ℚ) ≤ 1 / 2 := by norm_num
  ⟨h0, h1,
    RoundedRectangle_stays_in_box 3.75 5 1 1 0.025 0.025 4.25 5.5 1 1 0.025 h0 h1 h0 h1 h0 h1 h1⟩

/-! ### `create_registration` and the geometry constants -/

/-- C12. For every page size and `RegistrationGeometry`, `create_registration` emits
(1) one `rect`, a square of side `square_size_in` moved to `(inset_left_in,
page_height_in - inset_top_in)`, which is its top-left corner; (2) a stroke from
`(inset_left_in, inset_bottom_in + line_length_in)` down to the corner `(inset_left_in,
inset_bottom_in)` and on to the right to `(inset_left_in + line_length_in,
inset_bottom_in)`; (3) a stroke from `(page_width_in - inset_right_in - line_length_in,
page_height_in - inset_top_in)` to the corner `(page_width_in - inset_right_in,
page_height_in - inset_top_in)` and on down by `line_length_in`. Each of the four legs has
squared length `line_length_in ^ 2`. With `cameo4_no_mat_reg_geometry` on an 8.5 x 11 in
page the square's top-left corner is at x = 0.625 and 0.625 below the top edge, and the
vertical leg of the bottom-left L has its corner end 1.024 above the bottom edge. -/
theorem create_registration_marks {K : Type} [Field K]
    (page_width_in page_height_in : K) (geom : RegistrationGeometry K) :
    rectsFrom (0, 0) (create_registration page_width_in page_height_in geom)
      = [ ⟨geom.inset_left_in, page_height_in - geom.inset_top_in,
           geom.square_size_in, geom.square_size_in⟩ ] ∧
    (rectCorners (⟨geom.inset_left_in, page_height_in - geom.inset_top_in,
        geom.square_size_in, geom.square_size_in⟩ : RectAt K)).head?
      = some (geom.inset_left_in, page_height_in - geom.inset_top_in) ∧
    csLineSegsFrom (0, 0) (create_registration page_width_in page_height_in geom)
      = [ ⟨(geom.inset_left_in, geom.inset_bottom_in + geom.line_length_in),
           (geom.inset_left_in, geom.inset_bottom_in)⟩,
          ⟨(geom.inset_left_in, geom.inset_bottom_in),
           (geom.inset_left_in + geom.line_length_in, geom.inset_bottom_in)⟩,
          ⟨(page_width_in - geom.inset_right_in - geom.line_length_in,
              page_height_in - geom.inset_top_in),
           (page_width_in - geom.inset_right_in, page_height_in - geom.inset_top_in)⟩,
          ⟨(page_width_in - geom.inset_right_in, page_height_in - geom.inset_top_in),
           (page_width_in - geom.inset_right_in,
              page_height_in - geom.inset_top_in - geom.line_length_in)⟩ ] ∧
    (∀ seg ∈ csLineSegsFrom (0, 0) (create_registration page_width_in page_height_in geom),
      distSq seg.p0 seg.p1 = geom.line_length_in ^ 2) ∧
    rectsFrom (0, 0) (create_registration (8.5 : ℚ) 11 cameo4_no_mat_reg_geometry)
      = [ ⟨0.625, 11 - 0.625, 0.2, 0.2⟩ ] ∧
    (csLineSegsFrom (0, 0)
        (create_registration (8.5 : ℚ) 11 cameo4_no_mat_reg_geometry)).head?
      = some ⟨(0.625, 1.024 + 0.5), (0.625, 1.024)⟩ := by
  have hsegs : csLineSegsFrom (0, 0) (create_registration page_width_in page_height_in geom)
      = [ ⟨(geom.inset_left_in, geom.inset_bottom_in + geom.line_length_in),
           (geom.inset_left_in, geom.inset_bottom_in)⟩,
          ⟨(geom.inset_left_in, geom.inset_bottom_in),
           (geom.inset_left_in + geom.line_length_in, geom.inset_bottom_in)⟩,
          ⟨(page_width_in - geom.inset_right_in - geom.line_length_in,
              page_height_in - geom.inset_top_in),
           (page_width_in - geom.inset_right_in, page_height_in - geom.inset_top_in)⟩,
          ⟨(page_width_in - geom.inset_right_in, page_height_in - geom.inset_top_in),
           (page_width_in - geom.inset_right_in,
              page_height_in - geom.inset_top_in - geom.line_length_in)⟩ ] := by
    simp [create_registration, csLineSegsFrom]
  refine ⟨?_, rfl, hsegs, ?_, ?_, ?_⟩
  · simp [create_registration, rectsFrom]
  · rw [hsegs]
    intro seg hseg
    simp only [List.mem_cons, List.mem_singleton, List.not_mem_nil, or_false] at hseg
    rcases hseg with h | h | h | h <;> subst h <;> simp only [distSq] <;> ring
  · simp [create_registration, rectsFrom, cameo4_no_mat_reg_geometry]
  · simp [create_registration, csLineSegsFrom, cameo4_no_mat_reg_geometry]

/-- C13. Both compiled-in overlay profiles keep their keys narrower than the column pitch
and lower than the row pitch, and their corner radii within half the shorter side; and
`cameo4_no_mat_reg_geometry` has all its insets and sizes non-negative and leaves a
positive usable width and height on the 8.5 x 11 in page. -/
theorem geometry_constants_valid {K : Type} [LinearOrderedField K] :
    ((hp_geometry : OverlayGeometry K).key_width_in < hp_geometry.key_col_pitch_in ∧
      (hp_geometry : OverlayGeometry K).key_height_in < hp_geometry.key_row_pitch_in ∧
      (hp_geometry : OverlayGeometry K).corner_radius_in
        ≤ min (hp_geometry : OverlayGeometry K).width_in hp_geometry.height_in / 2 ∧
      (hp_geometry : OverlayGeometry K).key_corner_radius_in
        ≤ min (hp_geometry : OverlayGeometry K).key_width_in hp_geometry.key_height_in / 2) ∧
    ((sm_geometry : OverlayGeometry K).key_width_in < sm_geometry.key_col_pitch_in ∧
      (sm_geometry : OverlayGeometry K).key_height_in < sm_geometry.key_row_pitch_in ∧
      (sm_geometry : OverlayGeometry K).corner_radius_in
        ≤ min (sm_geometry : OverlayGeometry K).width_in sm_geometry.height_in / 2 ∧
      (sm_geometry : OverlayGeometry K).key_corner_radius_in
        ≤ min (sm_geometry : OverlayGeometry K).key_width_in sm_geometry.key_height_in / 2) ∧
    ((0 : K) ≤ (cameo4_no_mat_reg_geometry : RegistrationGeometry K).inset_left_in ∧
      (0 : K) ≤ (cameo4_no_mat_reg_geometry : RegistrationGeometry K).inset_right_in ∧
      (0 : K) ≤ (cameo4_no_mat_reg_geometry : RegistrationGeometry K).inset_top_in ∧
      (0 : K) ≤ (cameo4_no_mat_reg_geometry : RegistrationGeometry K).inset_bottom_in ∧
      (0 : K) ≤ (cameo4_no_mat_reg_geometry : RegistrationGeometry K).square_size_in ∧
      (0 : K) ≤ (cameo4_no_mat_reg_geometry : RegistrationGeometry K).line_length_in ∧
      (0 : K) ≤ (cameo4_no_mat_reg_geometry : RegistrationGeometry K).line_width_in ∧
      (0 : K) < 8.5 - (cameo4_no_mat_reg_geometry : RegistrationGeometry K).inset_left_in
        - (cameo4_no_mat_reg_geometry : RegistrationGeometry K).inset_right_in ∧
      (0 : K) < 11 - (cameo4_no_mat_reg_geometry : RegistrationGeometry K).inset_top_in
        - (cameo4_no_mat_reg_geometry : RegistrationGeometry K).inset_bottom_in) := by
  refine ⟨⟨?_, ?_, ?_, ?_⟩, ⟨?_, ?_, ?_, ?_⟩, ⟨?_, ?_, ?_, ?_, ?_, ?_, ?_, ?_, ?_⟩⟩ <;>
    norm_num [hp_geometry, sm_geometry, cameo4_no_mat_reg_geometry, mm_per_in, le_div_iff₀,
      le_min_iff]

/-! ### `create_overlay`: columns and the tall key -/

/-- The keys of `create_overlay` are those of `keyRectAt` on the cells of `keyCells`. -/
theorem overlayKeys_eq_map {K : Type} [Field K] (geom : OverlayGeometry K) :
    overlayKeys geom = keyCells.map (keyRectAt geom) := by
  rw [keyCells_eq]
  simp [overlayKeys, create_overlay, create_overlay_row, create_overlay_cell,
    List.range_succ, roundedRectsFrom, keyRectAt]

/-- C14. For every `OverlayGeometry`, the keys of `create_overlay` have their left edge at
`x(col) = width/2 - 5*key_col_pitch + (key_col_pitch - key_width)/2 + col*key_col_pitch`
and the width `key_width`. The left margin `x(0)` equals the right margin
`width - (x(9) + key_width)`, consecutive columns are `key_col_pitch` apart, and the space
between a key and the next one in its row is `key_col_pitch - key_width`, which is
positive when `key_width < key_col_pitch`. -/
theorem create_overlay_columns {K : Type} [LinearOrderedField K] (geom : OverlayGeometry K) :
    overlayKeys geom = keyCells.map (keyRectAt geom) ∧
    (∀ row col : Nat, (keyRectAt geom (row, col)).x
      = geom.width_in / 2 - 5 * geom.key_col_pitch_in
        + (geom.key_col_pitch_in - geom.key_width_in) / 2 + col * geom.key_col_pitch_in ∧
      (keyRectAt geom (row, col)).w = geom.key_width_in) ∧
    (∀ row : Nat, (keyRectAt geom (row, 0)).x
      = geom.width_in - ((keyRectAt geom (row, 9)).x + geom.key_width_in)) ∧
    (∀ row col : Nat, (keyRectAt geom (row, col + 1)).x - (keyRectAt geom (row, col)).x
      = geom.key_col_pitch_in) ∧
    (∀ row col : Nat, (keyRectAt geom (row, col + 1)).x
        - ((keyRectAt geom (row, col)).x + (keyRectAt geom (row, col)).w)
      = geom.key_col_pitch_in - geom.key_width_in) ∧
    (geom.key_width_in < geom.key_col_pitch_in →
      ∀ row col : Nat, (keyRectAt geom (row, col)).x + (keyRectAt geom (row, col)).w
        < (keyRectAt geom (row, col + 1)).x) := by
  have h2 : (2.0 : K) = 2 := by norm_num
  have hgap : ∀ row col : Nat, (keyRectAt geom (row, col + 1)).x
        - ((keyRectAt geom (row, col)).x + (keyRectAt geom (row, col)).w)
      = geom.key_col_pitch_in - geom.key_width_in := by
    intro row col
    simp only [keyRectAt, h2]
    push_cast
    ring
  refine ⟨overlayKeys_eq_map geom, ?_, ?_, ?_, hgap, ?_⟩
  · intro row col
    simp [keyRectAt, h2]
  · intro row
    simp only [keyRectAt, h2]
    push_cast
    ring
  · intro row col
    simp only [keyRectAt, h2]
    push_cast
    ring
  · intro hlt row col
    have := hgap row col
    linarith

/-- C14 at a concrete input: the `hp` profile. -/
theorem create_overlay_columns_witness :
    (hp_geometry : OverlayGeometry ℚ).key_width_in < hp_geometry.key_col_pitch_in ∧
    ∀ row col : Nat,
      (keyRectAt (hp_geometry : OverlayGeometry ℚ) (row, col)).x
          + (keyRectAt (hp_geometry : OverlayGeometry ℚ) (row, col)).w
        < (keyRectAt (hp_geometry : OverlayGeometry ℚ) (row, col + 1)).x :=
  have h : (hp_geometry : OverlayGeometry ℚ).key_width_in < hp_geometry.key_col_pitch_in := by
    norm_num [hp_geometry]
  ⟨h, (create_overlay_columns (hp_geometry : OverlayGeometry ℚ)).2.2.2.2.2 h⟩

/-- C18. For every `OverlayGeometry`, among the keys of `create_overlay` the key of the cell
`(2, 5)` has the height `key_height_in + key_row_pitch_in` and every other key the height
`key_height_in`; the cell `(3, 5)` has no key. With `y(row) = height_in - row *
key_row_pitch_in - key_row_1_offset_in` the anchor of a row, which is the `y` of its keys,
the tall height is `(y(2) - y(3)) + key_height_in`: measured from its anchor, the tall key
ends where a key of row 3 ends. -/
theorem create_overlay_tall_key {K : Type} [Field K] (geom : OverlayGeometry K) :
    overlayKeys geom = keyCells.map (keyRectAt geom) ∧
    (2, 5) ∈ keyCells ∧ (3, 5) ∉ keyCells ∧
    (∀ c ∈ keyCells, (keyRectAt geom c).h =
      if c = (2, 5) then geom.key_height_in + geom.key_row_pitch_in
      else geom.key_height_in) ∧
    (∀ row col : Nat, (keyRectAt geom (row, col)).y
      = geom.height_in - row * geom.key_row_pitch_in - geom.key_row_1_offset_in) ∧
    (keyRectAt geom (2, 5)).h
      = ((geom.height_in - (2 : Nat) * geom.key_row_pitch_in - geom.key_row_1_offset_in)
          - (geom.height_in - (3 : Nat) * geom.key_row_pitch_in - geom.key_row_1_offset_in))
        + geom.key_height_in ∧
    (∀ col : Nat, (keyRectAt geom (2, 5)).y - (keyRectAt geom (2, 5)).h
      = (keyRectAt geom (3, col)).y - geom.key_height_in) := by
  refine ⟨overlayKeys_eq_map geom, by decide, by decide, ?_, ?_, ?_, ?_⟩
  · intro c _
    simp [keyRectAt, Prod.ext_iff]
  · intro row col
    rfl
  · simp only [keyRectAt, and_self, if_true]
    push_cast
    ring
  · intro col
    simp only [keyRectAt, and_self, if_true]
    push_cast
    ring

end VoyagerOverlay
